import Mathlib

/-!
A verification development for the rcc C compiler front-end
(jyn514/rust-c-compiler).  The definitions below are shallow embeddings of
the Rust sources, chiefly:

  * src/fold.rs          (Expr::const_fold and its helpers)
  * src/backend/mod.rs   (sizeof / alignof / struct_size / struct_offset)
  * src/lex/mod.rs       (the Lexer iterator)

Machine integers are modelled as Nat / Int with explicit reductions modulo
2^64 where the Rust code wraps; i64 values are Ints in [-2^63, 2^63) and
u64 values are Nats below 2^64.  Rust f64 is modelled by Lean Float (both
are IEEE-754 binary64).  Fallible Rust functions returning Result are
modelled with Except.
-/

set_option maxHeartbeats 1000000

/-! ## Machine arithmetic (i64 / u64), as used by fold.rs -/

/-- Reduce an integer into the i64 range [-2^63, 2^63), two's complement. -/
def i64Wrap (x : Int) : Int := (x + 2^63) % 2^64 - 2^63

/-- Whether an integer lies in the i64 range. -/
def i64InRange (x : Int) : Prop := -(2^63) ≤ x ∧ x < 2^63

instance (x : Int) : Decidable (i64InRange x) := by
  unfold i64InRange; infer_instance

/-- Rust overflowing_* on i64: the wrapped value together with the overflow
flag (true when the exact result leaves the i64 range). -/
def i64Overflowing (x : Int) : Int × Bool :=
  (i64Wrap x, decide (¬ i64InRange x))

def i64OverflowingAdd (a b : Int) : Int × Bool := i64Overflowing (a + b)

def i64OverflowingSub (a b : Int) : Int × Bool := i64Overflowing (a - b)

def i64OverflowingMul (a b : Int) : Int × Bool := i64Overflowing (a * b)

def i64OverflowingNeg (a : Int) : Int × Bool := i64Overflowing (-a)

/-- Rust i64::overflowing_div; `/` on i64 truncates toward zero (Int.tdiv).
The only overflowing case is MIN / -1. -/
def i64OverflowingDiv (a b : Int) : Int × Bool := i64Overflowing (Int.tdiv a b)

/-- Rust i64::overflowing_rem; `%` on i64 truncates (Int.tmod).  Rust defines
the overflow flag to be set exactly for MIN % -1 (which yields 0). -/
def i64OverflowingRem (a b : Int) : Int × Bool :=
  if a = -(2^63) ∧ b = -1 then (0, true) else (Int.tmod a b, false)

/-- The u64 two's-complement bit pattern of an i64 value. -/
def u64OfI64 (i : Int) : Nat := (i % 2^64).toNat

/-- Reinterpret a u64 bit pattern as an i64 value. -/
def i64OfU64 (n : Nat) : Int := i64Wrap n

/-- Rust i64 bitwise NOT (two's complement). -/
def i64Not (i : Int) : Int := -i - 1

def i64Xor (a b : Int) : Int := i64OfU64 (u64OfI64 a ^^^ u64OfI64 b)

def i64And (a b : Int) : Int := i64OfU64 (u64OfI64 a &&& u64OfI64 b)

def i64Or (a b : Int) : Int := i64OfU64 (u64OfI64 a ||| u64OfI64 b)

/-- Rust i64::overflowing_shl applied to a u32 shift amount: the shift is
taken modulo 64 and the flag reports whether the u32 amount was ≥ 64. -/
def i64OverflowingShl (i : Int) (s32 : Nat) : Int × Bool :=
  (i64Wrap (i * 2^(s32 % 64)), decide (64 ≤ s32))

/-- Rust i64::wrapping_shr applied to a u32 shift amount: arithmetic right
shift (floor division) by the amount modulo 64. -/
def i64WrappingShr (i : Int) (s32 : Nat) : Int := Int.fdiv i (2^(s32 % 64))

def u64WrappingAdd (a b : Nat) : Nat := (a + b) % 2^64

/-- Rust u64::wrapping_sub, for operands below 2^64. -/
def u64WrappingSub (a b : Nat) : Nat := (a + 2^64 - b) % 2^64

def u64WrappingMul (a b : Nat) : Nat := (a * b) % 2^64

/-- Rust u64::wrapping_div is plain division (the divisor is nonzero at every
call site in fold.rs thanks to the preceding zero check). -/
def u64WrappingDiv (a b : Nat) : Nat := a / b

def u64WrappingRem (a b : Nat) : Nat := a % b

def u64WrappingNeg (a : Nat) : Nat := (2^64 - a) % 2^64

/-- Rust u64::wrapping_shl applied to a u32 shift amount. -/
def u64WrappingShl (u : Nat) (s32 : Nat) : Nat := (u * 2^(s32 % 64)) % 2^64

/-- Rust u64::wrapping_shr applied to a u32 shift amount. -/
def u64WrappingShr (u : Nat) (s32 : Nat) : Nat := u / 2^(s32 % 64)

/-- Rust u8 bitwise NOT. -/
def u8Not (c : Nat) : Nat := 255 - c

/-- Rust u8::wrapping_neg. -/
def u8WrappingNeg (c : Nat) : Nat := (256 - c) % 256

/-! ## Source locations (src/data/lex.rs) -/

structure Location where
  line : Nat
  column : Nat
  file : String
deriving Repr, DecidableEq

def Location.default : Location := { line := 1, column := 1, file := "" }

/-- Locatable<T>: a payload together with a location. -/
structure Locatable (α : Type) where
  data : α
  location : Location
deriving Repr

/-! ## Qualifiers, storage classes, tokens (src/data.rs, src/data/lex.rs) -/

structure Qualifiers where
  volatile : Bool
  cConst : Bool
deriving Repr, DecidableEq

def Qualifiers.NONE : Qualifiers := { volatile := false, cConst := false }

inductive StorageClass where
  | static | cExtern | auto | register | typedef
deriving Repr, DecidableEq

inductive ComparisonToken where
  | less | greater | equalEqual | notEqual | lessEqual | greaterEqual
deriving Repr, DecidableEq

inductive AssignmentToken where
  | equal | plusEqual | minusEqual | starEqual | divideEqual | modEqual
  | leftEqual | rightEqual | andEqual | orEqual | xorEqual
deriving Repr, DecidableEq

/-- The Literal enum of src/data/lex.rs (the revision fold.rs compiles
against): Int(i64), UnsignedInt(u64), Float(f64), Str, Char(u8). -/
inductive Literal where
  | int (i : Int)
  | unsignedInt (u : Nat)
  | float (f : Float)
  | str (s : String)
  | char (c : Nat)
deriving Repr

/-! ## The type model (Type in src/data/types.rs, reconstructed from its
uses in src/backend/mod.rs, src/data.rs and src/fold.rs)

Vec<Symbol> fields are modelled with the inlined list type SymList so that
all recursions below stay structural (and hence kernel-computable); SymList
is isomorphic to List Symbol. -/

inductive ArrayType where
  | fixed (len : Nat)
  | unbounded
deriving Repr, DecidableEq

mutual

inductive CType where
  | void
  | bool
  | char (signed : Bool)
  | short (signed : Bool)
  | int (signed : Bool)
  | long (signed : Bool)
  | float
  | double
  | pointer (inner : CType) (quals : Qualifiers)
  | array (elem : CType) (size : ArrayType)
  | function (ret : CType) (params : SymList) (varargs : Bool)
  | struct (st : SType)
  | union (st : SType)
  | enum (tag : Option String) (members : List (String × Int))
  | bitfield (inner : CType)
  | vaList
deriving Repr

/-- StructType: Named(tag, size, align, members) or Anonymous(members). -/
inductive SType where
  | named (tag : String) (size : Nat) (align : Nat) (members : SymList)
  | anonymous (members : SymList)
deriving Repr

/-- Symbol (src/data.rs): id, ctype, qualifiers, storage class, init flag. -/
inductive CSym where
  | mk (id : String) (ctype : CType) (qualifiers : Qualifiers)
       (storageClass : StorageClass) (init : Bool)
deriving Repr

inductive SymList where
  | nil
  | cons (head : CSym) (tail : SymList)
deriving Repr

end

def CSym.id : CSym → String
  | .mk i _ _ _ _ => i

def CSym.ctype : CSym → CType
  | .mk _ c _ _ _ => c

def SymList.length : SymList → Nat
  | .nil => 0
  | .cons _ t => 1 + SymList.length t

def SymList.get? : SymList → Nat → Option CSym
  | .nil, _ => none
  | .cons h _, 0 => some h
  | .cons _ t, n + 1 => SymList.get? t n

/-- Modelled from the spec (section 3, Type): Type::is_signed; the file
src/data/types.rs that defines it is not present under src/.  The signed
char|short|int|long variants carry their signedness flag; floating types
are signed; everything else is not. -/
def CType.isSigned : CType → Bool
  | .char s | .short s | .int s | .long s => s
  | .float | .double => true
  | _ => false

/-- Modelled from the spec (section 3, Type): Type::is_integral; the file
src/data/types.rs that defines it is not present under src/. -/
def CType.isIntegral : CType → Bool
  | .bool | .char _ | .short _ | .int _ | .long _ | .enum _ _ => true
  | _ => false

/-- Modelled from the spec (section 3, Type): Type::is_pointer; the file
src/data/types.rs that defines it is not present under src/. -/
def CType.isPointer : CType → Bool
  | .pointer _ _ => true
  | _ => false

/-- Modelled from the spec (section 4.5): the target size table of
src/backend/x64.rs (not present under src/): char = bool = 1, short = 2,
int = float = 4, long = double = pointer = 8, CHAR_BIT = 8. -/
def CHAR_BIT : Nat := 8

mutual

/-- Type::sizeof (src/backend/mod.rs lines 66-102).  Multiplications and
additions on u64 sizes are reduced modulo 2^64 (Rust release semantics). -/
def CType.sizeof : CType → Except String Nat
  | .bool => .ok 1
  | .char _ => .ok 1
  | .short _ => .ok 2
  | .int _ => .ok 4
  | .long _ => .ok 8
  | .float => .ok 4
  | .double => .ok 8
  | .pointer _ _ => .ok 8
  | .array t (.fixed l) =>
    match CType.sizeof t with
    | .ok n => .ok ((n * l) % 2^64)
    | .error e => .error e
  | .array _ .unbounded => .error ("cannot take sizeof variable length array")
  | .enum _ symbols =>
    -- ceiling division of the enumerator count by CHAR_BIT, then the
    -- smallest covering power-of-two byte count (backend/mod.rs 79-90)
    let n := (symbols.length + CHAR_BIT - 1) / CHAR_BIT
    if n ≤ 8 then .ok 8
    else if n ≤ 16 then .ok 16
    else if n ≤ 32 then .ok 32
    else if n ≤ 64 then .ok 64
    else .error ("enum cannot be represented in SIZE_T bits")
  | .struct (.named _ size _ _) => .ok size
  | .union (.named _ size _ _) => .ok size
  | .struct (.anonymous symbols) => structSizeAux 0 symbols
  | .union (.anonymous symbols) => unionSizeAux 1 symbols
  | .bitfield _ => .error ("unimplemented: sizeof(bitfield)")
  | .function _ _ _ => .error ("cannot take `sizeof` a function")
  | .void => .error ("cannot take `sizeof` void")
  | .vaList => .error ("cannot take `sizeof` va_list")

/-- struct_size (src/backend/mod.rs lines 42-49): try_fold of the member
sizes, starting from 0, with the accumulator carried on the left. -/
def structSizeAux (acc : Nat) : SymList → Except String Nat
  | .nil => .ok acc
  | .cons (.mk _ ct _ _ _) rest =>
    match CType.sizeof ct with
    | .ok size => structSizeAux ((acc + size) % 2^64) rest
    | .error e => .error e

/-- union_size (src/backend/mod.rs lines 34-40): try_fold of max of the
member sizes, starting from 1. -/
def unionSizeAux (acc : Nat) : SymList → Except String Nat
  | .nil => .ok acc
  | .cons (.mk _ ct _ _ _) rest =>
    match CType.sizeof ct with
    | .ok size => unionSizeAux (max acc size) rest
    | .error e => .error e

/-- Type::alignof (src/backend/mod.rs lines 103-127).  For the scalar,
union and enum arms the Rust code delegates to self.sizeof(); those arms
are inlined here so that the mutual recursion stays structural. -/
def CType.alignof : CType → Except String Nat
  | .bool => .ok 1
  | .char _ => .ok 1
  | .short _ => .ok 2
  | .int _ => .ok 4
  | .long _ => .ok 8
  | .float => .ok 4
  | .double => .ok 8
  | .pointer _ _ => .ok 8
  | .union (.named _ size _ _) => .ok size
  | .union (.anonymous symbols) => unionSizeAux 1 symbols
  | .enum _ symbols =>
    let n := (symbols.length + CHAR_BIT - 1) / CHAR_BIT
    if n ≤ 8 then .ok 8
    else if n ≤ 16 then .ok 16
    else if n ≤ 32 then .ok 32
    else if n ≤ 64 then .ok 64
    else .error ("enum cannot be represented in SIZE_T bits")
  | .array t _ => CType.alignof t
  | .struct (.named _ _ align _) => .ok align
  | .struct (.anonymous members) => structAlignAux 0 members
  | .bitfield _ => .error ("unimplemented: alignof bitfield")
  | .function _ _ _ => .error ("cannot take `alignof` function")
  | .void => .error ("cannot take `alignof` void")
  | .vaList => .error ("cannot take `alignof` va_list")

/-- struct_align (src/backend/mod.rs lines 51-55): try_fold of max of the
member alignments, starting from 0. -/
def structAlignAux (acc : Nat) : SymList → Except String Nat
  | .nil => .ok acc
  | .cons (.mk _ ct _ _ _) rest =>
    match CType.alignof ct with
    | .ok a => structAlignAux (max a acc) rest
    | .error e => .error e

end

def structSize (symbols : SymList) : Except String Nat := structSizeAux 0 symbols

def unionSize (symbols : SymList) : Except String Nat := unionSizeAux 1 symbols

def structAlign (members : SymList) : Except String Nat := structAlignAux 0 members

/-- Type::struct_offset (src/backend/mod.rs lines 131-149).  The running
offset advances by each preceding member's size rounded up to the struct's
own alignment (self.alignof()).  The two .expect() calls, the modulo by a
zero alignment and the trailing unreachable! are all panics in Rust and are
modelled as none.  The u64 subtraction align - size wraps (release
semantics), hence u64WrappingSub. -/
def structOffsetAux (self : CType) (member : String) :
    Nat → SymList → Option Nat
  | _, .nil => none
  | currentOffset, .cons formal rest =>
    if formal.id = member then some currentOffset
    else
      match CType.sizeof formal.ctype with
      | .error _ => none
      | .ok size =>
        match CType.alignof self with
        | .error _ => none
        | .ok align =>
          if align = 0 then none
          else
            let size :=
              if size % align ≠ 0 then
                (size + u64WrappingSub align size % align) % 2^64
              else size
            structOffsetAux self member ((currentOffset + size) % 2^64) rest

def CType.structOffset (self : CType) (members : SymList) (member : String) :
    Option Nat :=
  structOffsetAux self member 0 members

/-! ## Errors (src/data/error.rs) and CompileResult (src/fold.rs) -/

/-- SemanticError (src/data/error.rs lines 240-257): the constant-folding
variants.  The Rust enum is explicitly non-exhaustive; its remaining
variants are not reachable from the functions modelled in this file. -/
inductive SemanticError where
  | constOverflow (isPositive : Bool)
  | divideByZero
  | negativeShift (isLeft : Bool)
  | tooManyShiftBits (isLeft : Bool) (maximum : Nat) (ctype : CType) (current : Nat)
deriving Repr

/-- The payload of a compile error as fold.rs produces it: either a
SemanticError (location.error(...)), a plain message string (the semantic_err!
macro with a String, and the stringified sizeof errors), or an internal
panic (the unreachable! in shift_right, which aborts in Rust). -/
inductive ErrorData where
  | semantic (err : SemanticError)
  | generic (msg : String)
  | internalBug (msg : String)
deriving Repr

structure CompileError where
  data : ErrorData
  location : Location
deriving Repr

abbrev CResult (α : Type) : Type := Except CompileError α

/-! ## The HIR expression tree (src/data.rs, at the revision fold.rs
compiles against: Literal carries the Literal enum, Compare carries a
ComparisonToken, Assign an AssignmentToken, and the tree has a Noop variant
and no LogicalNot variant, exactly the variants matched exhaustively by
Expr::const_fold).  Vec<Expr> is modelled with the inlined list type
ExprList so the recursion stays structural. -/

mutual

inductive ExprType where
  | literal (lit : Literal)
  | id (name : CSym)
  | funcCall (func : Expr) (args : ExprList)
  | member (base : Expr) (name : String)
  | postIncrement (e : Expr) (increase : Bool)
  | cast (e : Expr)
  | sizeofType (t : CType)
  | deref (e : Expr)
  | negate (e : Expr)
  | bitwiseNot (e : Expr)
  | logicalOr (l r : Expr)
  | bitwiseOr (l r : Expr)
  | logicalAnd (l r : Expr)
  | bitwiseAnd (l r : Expr)
  | xor (l r : Expr)
  | mul (l r : Expr)
  | div (l r : Expr)
  | mod (l r : Expr)
  | add (l r : Expr)
  | sub (l r : Expr)
  | shift (l r : Expr) (isLeft : Bool)
  | compare (l r : Expr) (op : ComparisonToken)
  | assign (target value : Expr) (op : AssignmentToken)
  | ternary (cond thenE elseE : Expr)
  | comma (l r : Expr)
  | noop (inner : Expr)
  | staticRef (inner : Expr)
deriving Repr

/-- Expr (src/data.rs lines 68-94): payload, type, constexpr and lval
flags, location. -/
inductive Expr where
  | mk (expr : ExprType) (ctype : CType) (constexpr : Bool) (lval : Bool)
       (location : Location)
deriving Repr

inductive ExprList where
  | nil
  | cons (head : Expr) (tail : ExprList)
deriving Repr

end

def Expr.expr : Expr → ExprType
  | .mk e _ _ _ _ => e

def Expr.ctype : Expr → CType
  | .mk _ c _ _ _ => c

def Expr.constexpr : Expr → Bool
  | .mk _ _ cx _ _ => cx

def Expr.lval : Expr → Bool
  | .mk _ _ _ lv _ => lv

def Expr.location : Expr → Location
  | .mk _ _ _ _ loc => loc

/-- The struct-update Expr { expr: et, ..e } used when fold rebuilds a
shift node around an already-extracted literal token. -/
def Expr.withExpr (e : Expr) (et : ExprType) : Expr :=
  match e with
  | .mk _ ct cx lv loc => .mk et ct cx lv loc

/-- Whether an ExprType is a Literal payload (the final is_constexpr match
of Expr::const_fold, fold.rs lines 323-326). -/
def isLitET : ExprType → Bool
  | .literal _ => true
  | _ => false

/-- Expr::is_zero (src/fold.rs lines 64-76).  The float comparison is the
IEEE equality f == 0.0. -/
def Expr.isZero (e : Expr) : Bool :=
  match e.expr with
  | .literal token =>
    match token with
    | .int i => i == 0
    | .unsignedInt u => u == 0
    | .float f => f == 0.0
    | .char c => c == 0
    | _ => false
  | _ => false

/-- Literal::non_negative_int (src/fold.rs lines 386-393). -/
def Literal.nonNegativeInt : Literal → Except Unit Nat
  | .int i => if 0 ≤ i then .ok i.toNat else .error ()
  | .unsignedInt u => .ok u
  | .char c => .ok c
  | _ => .error ()

/-! ## const_fold helpers (src/fold.rs) -/

/-- fold_scalar_bin_op (src/fold.rs lines 17-42): checked arithmetic on two
Int literals (overflow is a ConstOverflow whose is_positive field is
value.is_negative() of the wrapped value), wrapping arithmetic on two
UnsignedInt literals, IEEE-754 arithmetic on two Float literals, and no
fold (None) for any other pair. -/
def foldScalarBinOp (simple : Float → Float → Float)
    (overflowing : Int → Int → Int × Bool) (wrapping : Nat → Nat → Nat) :
    Literal → Literal → CType → Except SemanticError (Option Literal) :=
  fun a b _ctype =>
    match a, b with
    | .int a, .int b =>
      let (value, overflowed) := overflowing a b
      if overflowed then .error (.constOverflow (decide (value < 0)))
      else .ok (some (.int value))
    | .unsignedInt a, .unsignedInt b => .ok (some (.unsignedInt (wrapping a b)))
    | .float a, .float b => .ok (some (.float (simple a b)))
    | _, _ => .ok none

def u64Not (u : Nat) : Nat := 2^64 - 1 - u

/-- The fold_int_bin_op! macro (src/fold.rs lines 6-15), which instantiates
the same textual operator at i64, u64 and u8; the three instantiated
operations are passed explicitly here. -/
def foldIntBinOp (opI : Int → Int → Int) (opU : Nat → Nat → Nat)
    (opC : Nat → Nat → Nat) :
    Literal → Literal → CType → Except SemanticError (Option Literal) :=
  fun a b _ctype =>
    match a, b with
    | .int a, .int b => .ok (some (.int (opI a b)))
    | .unsignedInt a, .unsignedInt b => .ok (some (.unsignedInt (opU a b)))
    | .char a, .char b => .ok (some (.char (opC a b)))
    | _, _ => .ok none

/-- The inline fold function of the Mod branch (src/fold.rs lines 208-224):
overflowing_rem on Ints, wrapping_rem on UnsignedInts, None otherwise. -/
def modFoldFn : Literal → Literal → CType → Except SemanticError (Option Literal) :=
  fun a b _ctype =>
    match a, b with
    | .int a, .int b =>
      let (value, overflowed) := i64OverflowingRem a b
      if overflowed then .error (.constOverflow (decide (value < 0)))
      else .ok (some (.int value))
    | .unsignedInt a, .unsignedInt b => .ok (some (.unsignedInt (u64WrappingRem a b)))
    | _, _ => .ok none

/-- The inline fold function of the LogicalAnd branch (src/fold.rs lines
304-308): only the literal Int values 1 and 0 participate. -/
def andFoldFn : Literal → Literal → CType → Except SemanticError (Option Literal) :=
  fun left right _ =>
    match left, right with
    | .int 1, .int 1 => .ok (some (.int 1))
    | .int 0, _ => .ok (some (.int 0))
    | _, .int 0 => .ok (some (.int 0))
    | _, _ => .ok none

/-- The inline fold function of the LogicalOr branch (src/fold.rs lines
314-318). -/
def orFoldFn : Literal → Literal → CType → Except SemanticError (Option Literal) :=
  fun left right _ =>
    match left, right with
    | .int 0, .int 0 => .ok (some (.int 0))
    | .int 1, _ => .ok (some (.int 1))
    | _, .int 1 => .ok (some (.int 1))
    | _, _ => .ok none

def cmpInt (cmp : ComparisonToken) (a b : Int) : Bool :=
  match cmp with
  | .less => decide (a < b)
  | .lessEqual => decide (a ≤ b)
  | .greater => decide (b < a)
  | .greaterEqual => decide (b ≤ a)
  | .equalEqual => decide (a = b)
  | .notEqual => decide (¬ a = b)

def cmpNat (cmp : ComparisonToken) (a b : Nat) : Bool :=
  match cmp with
  | .less => decide (a < b)
  | .lessEqual => decide (a ≤ b)
  | .greater => decide (b < a)
  | .greaterEqual => decide (b ≤ a)
  | .equalEqual => decide (a = b)
  | .notEqual => decide (¬ a = b)

/-- IEEE comparisons on f64 (any comparison with a NaN operand other than
!= is false, exactly as in Rust). -/
def cmpFloat (cmp : ComparisonToken) (a b : Float) : Bool :=
  match cmp with
  | .less => decide (a < b)
  | .lessEqual => decide (a ≤ b)
  | .greater => decide (b < a)
  | .greaterEqual => decide (b ≤ a)
  | .equalEqual => Float.beq a b
  | .notEqual => !(Float.beq a b)

/-- The fold_compare_op! macro (src/fold.rs lines 44-61), applied to the
two already-folded operands: two literals of the same category fold to the
Int 0/1 truth value, every other pair rebuilds the Compare node. -/
def compareFolded (left right : Expr) (cmp : ComparisonToken) : ExprType :=
  match left.expr, right.expr with
  | .literal a, .literal b =>
    match a, b with
    | .int x, .int y => .literal (.int (if cmpInt cmp x y then 1 else 0))
    | .unsignedInt x, .unsignedInt y => .literal (.int (if cmpNat cmp x y then 1 else 0))
    | .float x, .float y => .literal (.int (if cmpFloat cmp x y then 1 else 0))
    | .char x, .char y => .literal (.int (if cmpNat cmp x y then 1 else 0))
    | _, _ => .compare left right cmp
  | _, _ => .compare left right cmp

/-- Expr::map_literal (src/fold.rs lines 365-382). -/
def mapLiteral (self : Expr) (location : Location)
    (literalFunc : Literal → Except SemanticError Literal)
    (constructor : Expr → ExprType) : CResult ExprType :=
  match self.expr with
  | .literal token =>
    match literalFunc token with
    | .ok lit => .ok (.literal lit)
    | .error err => .error ⟨.semantic err, location⟩
  | _ => .ok (constructor self)

/-- Expr::literal_bin_op (src/fold.rs lines 340-364), applied to the two
already-folded operands.  In the source the first line of literal_bin_op
const-folds both arguments; in this embedding those folds are performed at
the call sites inside constFold so that the recursion is structural.  (For
the Div and Mod branches the source therefore folds the right operand a
second time; it is folded once here.  The second fold can differ from the
first only through the shift-reconstruction slip recorded at
shiftLeftFolded below, which none of the theorems in this file exercise
under Div or Mod.) -/
def literalBinOp (left right : Expr) (location : Location)
    (foldFunc : Literal → Literal → CType → Except SemanticError (Option Literal))
    (constructor : Expr → Expr → ExprType) : CResult ExprType :=
  match left.expr, right.expr with
  | .literal leftToken, .literal rightToken =>
    match foldFunc leftToken rightToken left.ctype with
    | .error err => .error ⟨.semantic err, location⟩
    | .ok token =>
      match token with
      | some lit => .ok (.literal lit)
      | none => .ok (constructor left right)
  | _, _ => .ok (constructor left right)

/-- The Rust saturating cast f as u64 (negative and NaN inputs give 0,
too-large inputs give u64::MAX), via the saturating Float.toUInt64. -/
def floatAsU64 (f : Float) : Nat := (Float.toUInt64 f).toNat

/-- The Rust saturating cast f as i64: truncation toward zero, clamped to
the i64 range; NaN gives 0. -/
def floatAsI64 (f : Float) : Int :=
  if decide (f < 0) then -(min ((Float.toUInt64 (-f)).toNat) (2^63) : Int)
  else min ((Float.toUInt64 f).toNat) (2^63 - 1)

/-- const_cast (src/fold.rs lines 413-433): range-clipping of a literal
under a cast, by source-kind and target-kind. -/
def constCast (token : Literal) (ctype : CType) : Option Literal :=
  match token with
  | .int i =>
    match ctype with
    | .bool => some (.int (if i ≠ 0 then 1 else 0))
    | .double | .float => some (.float (Float.ofInt i))
    | ty =>
      if ty.isIntegral && ty.isSigned then some (.int i)
      else if ty.isIntegral then some (.unsignedInt (u64OfI64 i))
      else if ty.isPointer && 0 ≤ i then some (.unsignedInt i.toNat)
      else none
  | .unsignedInt u =>
    match ctype with
    | .bool => some (.int (if u ≠ 0 then 1 else 0))
    | .double | .float => some (.float (Float.ofNat u))
    | ty =>
      if ty.isIntegral && ty.isSigned then some (.int (i64OfU64 u))
      else if ty.isIntegral then some (.unsignedInt u)
      else if ty.isPointer then some (.unsignedInt u)
      else none
  | .float f =>
    match ctype with
    | .bool => some (.int (if Float.beq f 0.0 then 0 else 1))
    | .double | .float => some (.float f)
    | ty =>
      if ty.isIntegral && ty.isSigned then some (.int (floatAsI64 f))
      else if ty.isIntegral then some (.unsignedInt (floatAsU64 f))
      else none
  | .char c => if ctype.isPointer then some (.unsignedInt c) else none
  | .str _ => none

/-- fn cast (src/fold.rs lines 396-407), applied to the already-folded
inner expression. -/
def castFolded (expr : Expr) (ctype : CType) : ExprType :=
  match expr.expr with
  | .literal token =>
    match constCast token ctype with
    | some token' => .literal token'
    | none => .cast expr
  | _ => .cast expr

/-- shift_left (src/fold.rs lines 482-535), applied to the already-folded
operands.  Note that every arm that rebuilds an unfolded node passes false
as the direction flag, exactly as the source does (lines 523-533): the
rebuilt node is a right shift. -/
def shiftLeftFolded (left right : Expr) (ctype : CType) (location : Location) :
    CResult ExprType :=
  match right.expr with
  | .literal token =>
    match token.nonNegativeInt with
    | .error _ => .error ⟨.semantic (.negativeShift true), location⟩
    | .ok shift =>
      let rest : CResult ExprType :=
        match left.expr with
        | .literal (.int i) =>
          let (result, overflow) := i64OverflowingShl i (shift % 2^32)
          if overflow then .error ⟨.semantic (.constOverflow true), location⟩
          else .ok (.literal (.int result))
        | .literal (.unsignedInt u) =>
          .ok (.literal (.unsignedInt (u64WrappingShl u (shift % 2^32))))
        | _ => .ok (.shift left (right.withExpr (.literal token)) false)
      if left.ctype.isSigned then
        match left.ctype.sizeof with
        | .error err => .error ⟨.generic err, location⟩
        | .ok size =>
          let maxShift := CHAR_BIT * size
          if maxShift ≤ shift then
            .error ⟨.semantic (.tooManyShiftBits true maxShift ctype shift), location⟩
          else rest
      else rest
  | _ => .ok (.shift left right false)

/-- shift_right (src/fold.rs lines 435-480), applied to the already-folded
operands.  The zero-saturation test compares the shift amount against
sizeof (the byte count of the type), and the unreachable! for other literal
kinds is a Rust panic, modelled as an internalBug error. -/
def shiftRightFolded (left right : Expr) (ctype : CType) (location : Location) :
    CResult ExprType :=
  match right.expr with
  | .literal token =>
    match token.nonNegativeInt with
    | .error _ => .error ⟨.semantic (.negativeShift false), location⟩
    | .ok shift =>
      match CType.sizeof ctype with
      | .error err => .error ⟨.generic err, location⟩
      | .ok sizeofVal =>
        if sizeofVal ≤ shift then
          .ok (.literal (if ctype.isSigned then .int 0 else .unsignedInt 0))
        else
          match left.expr with
          | .literal (.int i) =>
            .ok (.literal (.int (i64WrappingShr i (shift % 2^32))))
          | .literal (.unsignedInt u) =>
            .ok (.literal (.unsignedInt (u64WrappingShr u (shift % 2^32))))
          | .literal _ =>
            .error ⟨.internalBug ("only ints and unsigned ints can be right shifted"), location⟩
          | _ => .ok (.shift left (right.withExpr (.literal token)) false)
  | _ => .ok (.shift left right false)

/-! ## Expr::const_fold (src/fold.rs lines 100-334)

constFold destructures the expression; foldExprData is the big match on
self.expr producing the folded ExprType (with self.ctype and the saved
location in scope), and the result is rebuilt with
constexpr = (folded is a literal), exactly as in lines 323-333.
The operand folds that the source performs inside literal_bin_op,
shift_left, shift_right, cast and the fold_compare_op! macro are performed
here at the call sites (see the comment at literalBinOp). -/

mutual

def constFold : Expr → CResult Expr
  | .mk selfExpr ctype constexprFlag lvalFlag location => do
    let folded ← foldExprData selfExpr ctype location
    let _ := constexprFlag
    pure (.mk folded ctype (isLitET folded) lvalFlag location)

def foldExprData (selfExpr : ExprType) (ctype : CType) (location : Location) :
    CResult ExprType :=
  match selfExpr with
  | .literal l => pure (.literal l)
  | .id name =>
    -- enumerator identifiers fold to their value (fold.rs lines 105-112)
    match ctype with
    | .enum _ members =>
      match members.find? (fun member => member.fst == name.id) with
      | some enumLiteral => pure (.literal (.int enumLiteral.snd))
      | none => pure (.id name)
    | _ => pure (.id name)
  | .sizeofType t =>
    match CType.sizeof t with
    | .ok n => pure (.literal (.unsignedInt n))
    | .error msg => .error ⟨.generic msg, location⟩
  | .negate inner => do
    let folded ← constFold inner
    mapLiteral folded location
      (fun token =>
        match token with
        | .int i =>
          let (value, overflowed) := i64OverflowingNeg i
          if overflowed then .error (.constOverflow (decide (value < 0)))
          else .ok (.int value)
        | .unsignedInt u => .ok (.unsignedInt (u64WrappingNeg u))
        | .char c => .ok (.char (u8WrappingNeg c))
        | .float f => .ok (.float (-f))
        | t => .ok t)
      .negate
  | .bitwiseNot inner => do
    let folded ← constFold inner
    mapLiteral folded location
      (fun token =>
        match token with
        | .int i => .ok (.int (i64Not i))
        | .unsignedInt u => .ok (.unsignedInt (u64Not u))
        | .char c => .ok (.char (u8Not c))
        | t => .ok t)
      .bitwiseNot
  | .comma l r => do
    let l' ← constFold l
    let r' ← constFold r
    -- a constexpr left operand can be dropped (fold.rs lines 150-158)
    if l'.constexpr then pure r'.expr else pure (.comma l' r')
  | .noop inner => do
    let inner' ← constFold inner
    pure (.noop inner')
  | .deref inner => do
    let folded ← constFold inner
    match folded.expr with
    | .literal (.int 0) =>
      .error ⟨.generic ("cannot dereference NULL pointer"), folded.location⟩
    | _ => pure (.deref folded)
  | .add l r => do
    let l' ← constFold l
    let r' ← constFold r
    literalBinOp l' r' location
      (foldScalarBinOp (fun a b => a + b) i64OverflowingAdd u64WrappingAdd) .add
  | .sub l r => do
    let l' ← constFold l
    let r' ← constFold r
    literalBinOp l' r' location
      (foldScalarBinOp (fun a b => a - b) i64OverflowingSub u64WrappingSub) .sub
  | .mul l r => do
    let l' ← constFold l
    let r' ← constFold r
    literalBinOp l' r' location
      (foldScalarBinOp (fun a b => a * b) i64OverflowingMul u64WrappingMul) .mul
  | .div l r => do
    let r' ← constFold r
    if r'.isZero then .error ⟨.semantic .divideByZero, location⟩
    else do
      let l' ← constFold l
      literalBinOp l' r' location
        (foldScalarBinOp (fun a b => a / b) i64OverflowingDiv u64WrappingDiv) .div
  | .mod l r => do
    let r' ← constFold r
    if r'.isZero then .error ⟨.semantic .divideByZero, location⟩
    else do
      let l' ← constFold l
      literalBinOp l' r' location modFoldFn .mod
  | .xor l r => do
    let l' ← constFold l
    let r' ← constFold r
    literalBinOp l' r' location
      (foldIntBinOp i64Xor (fun a b => a ^^^ b) (fun a b => a ^^^ b)) .xor
  | .bitwiseAnd l r => do
    let l' ← constFold l
    let r' ← constFold r
    literalBinOp l' r' location
      (foldIntBinOp i64And (fun a b => a &&& b) (fun a b => a &&& b)) .bitwiseAnd
  | .bitwiseOr l r => do
    let l' ← constFold l
    let r' ← constFold r
    literalBinOp l' r' location
      (foldIntBinOp i64Or (fun a b => a ||| b) (fun a b => a ||| b)) .bitwiseOr
  | .shift l r true => do
    let l' ← constFold l
    let r' ← constFold r
    shiftLeftFolded l' r' ctype location
  | .shift l r false => do
    let l' ← constFold l
    let r' ← constFold r
    shiftRightFolded l' r' ctype location
  | .compare l r cmp => do
    let l' ← constFold l
    let r' ← constFold r
    pure (compareFolded l' r' cmp)
  | .ternary cond thenE elseE => do
    let cond' ← constFold cond
    let then' ← constFold thenE
    let else' ← constFold elseE
    match cond'.expr with
    | .literal (.int 0) => pure else'.expr
    | .literal (.int _) => pure then'.expr
    | _ => pure (.ternary cond' then' else')
  | .funcCall func args => do
    let func' ← constFold func
    let args' ← constFoldList args
    -- function calls are always non-constant
    pure (.funcCall func' args')
  | .member base name => do
    let base' ← constFold base
    pure (.member base' name)
  | .assign target value tok => do
    let target' ← constFold target
    let value' ← constFold value
    pure (.assign target' value' tok)
  | .postIncrement e inc => do
    let e' ← constFold e
    pure (.postIncrement e' inc)
  | .cast inner => do
    let inner' ← constFold inner
    pure (castFolded inner' ctype)
  | .logicalAnd l r => do
    let l' ← constFold l
    let r' ← constFold r
    literalBinOp l' r' location andFoldFn .logicalAnd
  | .logicalOr l r => do
    let l' ← constFold l
    let r' ← constFold r
    literalBinOp l' r' location orFoldFn .logicalOr
  | .staticRef inner => do
    let inner' ← constFold inner
    pure (.staticRef inner')

def constFoldList : ExprList → CResult ExprList
  | .nil => pure .nil
  | .cons h t => do
    let h' ← constFold h
    let t' ← constFoldList t
    pure (.cons h' t')

end

/-! ## The member-offset computation as the specification words it
(for comparison with CType.structOffset) -/

/-- Round an offset up to the next multiple of align (align positive). -/
def roundUpTo (off align : Nat) : Nat :=
  if off % align = 0 then off else off + (align - off % align)

/-- The member-offset computation exactly as the claim states it: a linear
scan that rounds the running offset up to the alignment of each member
before placing that member.  This definition follows the words of the
specification (section 4.5) and NOT the source; it exists to be compared
with CType.structOffset above. -/
def specStructOffsetAux (member : String) : Nat → SymList → Option Nat
  | _, .nil => none
  | off, .cons m rest =>
    match CType.alignof m.ctype with
    | .error _ => none
    | .ok a =>
      if a = 0 then none
      else
        let off' := roundUpTo off a
        if m.id = member then some off'
        else
          match CType.sizeof m.ctype with
          | .error _ => none
          | .ok s => specStructOffsetAux member (off' + s) rest

def specStructOffset (members : SymList) (member : String) : Option Nat :=
  specStructOffsetAux member 0 members

/-! ## Character-escape lexing, modelled from the spec (section 4.2)

Modelled from the spec: the hex/octal escape handling of
Lexer::parse_single_char is not present in the copy of src/lex/mod.rs in
src/ (that copy is an older revision whose parse_single_char knows only
the simple escapes); the revision it belongs to survives in src/ only
through its tests (src/lex/tests.rs) and the declarations
LexError::CharEscapeOutOfRange(Radix) (src/data/error.rs line 502).  The
definitions in this section therefore follow the specification text:
hex escapes \xH+ accept any number of digits and diagnose values that do
not fit one byte; octal escapes read at most three digits and diagnose
values that do not fit one byte. -/

inductive Radix where
  | binary | octal | decimal | hexadecimal
deriving Repr, DecidableEq

/-- The lex errors reachable from the modelled escape parser. -/
inductive SpecLexError where
  | charEscapeOutOfRange (radix : Radix)
  | missingDigits (radix : Radix)
  | missingEndQuote
  | multiCharCharLiteral
  | emptyChar
deriving Repr, DecidableEq

def isHexDigitB (b : Nat) : Bool :=
  decide ((48 ≤ b ∧ b ≤ 57) ∨ (97 ≤ b ∧ b ≤ 102) ∨ (65 ≤ b ∧ b ≤ 70))

def hexDigitVal (b : Nat) : Nat :=
  if 48 ≤ b ∧ b ≤ 57 then b - 48
  else if 97 ≤ b ∧ b ≤ 102 then b - 87
  else b - 55

def isOctDigitB (b : Nat) : Bool := decide (48 ≤ b ∧ b ≤ 55)

/-- Modelled from the spec: consume every leading hex digit, accumulating
the (unbounded) value. -/
def specHexDigits : List Nat → Nat → Nat × List Nat
  | [], acc => (acc, [])
  | b :: rest, acc =>
    if isHexDigitB b then specHexDigits rest (acc * 16 + hexDigitVal b)
    else (acc, b :: rest)

/-- Modelled from the spec: a hex escape (after the backslash-x) of any
digit count; a value that does not fit one byte is a
CharEscapeOutOfRange(Hexadecimal) diagnostic. -/
def specHexEscape (bs : List Nat) : Except SpecLexError (Nat × List Nat) :=
  match bs with
  | [] => .error (.missingDigits .hexadecimal)
  | b :: _ =>
    if isHexDigitB b then
      let (value, rest) := specHexDigits bs 0
      if value ≤ 255 then .ok (value, rest)
      else .error (.charEscapeOutOfRange .hexadecimal)
    else .error (.missingDigits .hexadecimal)

/-- Modelled from the spec: consume at most n leading octal digits. -/
def specOctDigits : Nat → List Nat → Nat → Nat × List Nat
  | 0, bs, acc => (acc, bs)
  | _ + 1, [], acc => (acc, [])
  | n + 1, b :: rest, acc =>
    if isOctDigitB b then specOctDigits n rest (acc * 8 + (b - 48))
    else (acc, b :: rest)

/-- Modelled from the spec: an octal escape of at most three digits
(the first digit has already been seen by the caller); a value that does
not fit one byte is a CharEscapeOutOfRange(Octal) diagnostic. -/
def specOctalEscape (first : Nat) (bs : List Nat) :
    Except SpecLexError (Nat × List Nat) :=
  let (value, rest) := specOctDigits 2 bs (first - 48)
  if value ≤ 255 then .ok (value, rest)
  else .error (.charEscapeOutOfRange .octal)

/-- Modelled from the spec (section 4.2): one logical character of a char
literal: either a raw byte or an escape.  Simple escapes give their value,
hex and octal escapes as above, an unknown escape yields the literal
character (with a warning, not modelled). -/
def specParseSingleChar (bs : List Nat) : Except SpecLexError (Nat × List Nat) :=
  match bs with
  | [] => .error .missingEndQuote
  | 92 :: rest =>
    -- backslash escape
    match rest with
    | [] => .error .missingEndQuote
    | c :: rest' =>
      if c = 120 then specHexEscape rest'        -- backslash-x
      else if isOctDigitB c then specOctalEscape c rest'
      else if c = 110 then .ok (10, rest')       -- n
      else if c = 114 then .ok (13, rest')       -- r
      else if c = 116 then .ok (9, rest')        -- t
      else if c = 34 then .ok (34, rest')        -- double quote
      else if c = 39 then .ok (39, rest')        -- single quote
      else if c = 92 then .ok (92, rest')        -- backslash
      else if c = 97 then .ok (7, rest')         -- a
      else if c = 98 then .ok (8, rest')         -- b
      else if c = 118 then .ok (11, rest')       -- v
      else if c = 102 then .ok (12, rest')       -- f
      else if c = 63 then .ok (63, rest')        -- question mark
      else .ok (c, rest')                        -- unknown escape: literal char
  | b :: rest => .ok (b, rest)

/-- Modelled from the spec: lex a whole char literal (an opening single
quote, one logical character, a closing single quote) to a Char token. -/
def specLexCharLiteral (bs : List Nat) : Except SpecLexError Literal :=
  match bs with
  | 39 :: rest =>
    match specParseSingleChar rest with
    | .error e => .error e
    | .ok (c, rest') =>
      match rest' with
      | 39 :: _ => .ok (.char c)
      | [] => .error .missingEndQuote
      | _ => .error .multiCharCharLiteral
  | _ => .error .emptyChar

/-! ## Concrete expressions used by the claim theorems below -/

def locD : Location := Location.default

/-- A literal expression of the given type (constexpr, non-lval). -/
def litE (l : Literal) (ct : CType) : Expr := .mk (.literal l) ct true false locD

/-- A non-constant identifier expression x of the given type. -/
def idE (ct : CType) : Expr :=
  .mk (.id (.mk "x" ct Qualifiers.NONE .auto false)) ct false true locD

/-- 0x7fffffffffffffffL + 1 (both operands long, the overflow scenario). -/
def exprOverflowAdd : Expr :=
  .mk (.add (litE (.int (2^63 - 1)) (.long true)) (litE (.int 1) (.long true)))
    (.long true) false false locD

/-- 2 - 2 (int). -/
def exprTwoMinusTwo : Expr :=
  .mk (.sub (litE (.int 2) (.int true)) (litE (.int 2) (.int true)))
    (.int true) false false locD

/-- 1 / (2 - 2). -/
def exprDivByZero : Expr :=
  .mk (.div (litE (.int 1) (.int true)) exprTwoMinusTwo) (.int true) false false locD

/-- x % (2 - 2) with a non-constant left operand. -/
def exprModByZero : Expr :=
  .mk (.mod (idE (.int true)) exprTwoMinusTwo) (.int true) false false locD

/-- 1 << 65 (long, the too-many-shift-bits scenario). -/
def exprShl65 : Expr :=
  .mk (.shift (litE (.int 1) (.long true)) (litE (.int 65) (.long true)) true)
    (.long true) false false locD

/-- 65535 >> 10 at type unsigned long. -/
def exprShr10 : Expr :=
  .mk (.shift (litE (.unsignedInt 65535) (.long false))
        (litE (.int 10) (.long false)) false)
    (.long false) false false locD

/-- The result the code gives for exprShr10: UnsignedInt(0). -/
def exprShr10Result : Expr :=
  .mk (.literal (.unsignedInt 0)) (.long false) true false locD

/-- 0 && x with a non-constant right operand (int). -/
def exprAndZeroX : Expr :=
  .mk (.logicalAnd (litE (.int 0) (.int true)) (idE (.int true)))
    (.int true) false false locD

/-- What 0 && x folds to: the operands fold but the node is preserved. -/
def exprAndZeroXResult : Expr :=
  .mk (.logicalAnd (litE (.int 0) (.int true)) (idE (.int true)))
    (.int true) false false locD

/-- x << 9 with x a non-constant unsigned long, at type unsigned long. -/
def exprShlNonConst : Expr :=
  .mk (.shift (idE (.long false)) (litE (.int 9) (.long false)) true)
    (.long false) false false locD

/-- Folding exprShlNonConst once: the node comes back as a RIGHT shift
(shift_left rebuilds with false). -/
def exprShlNonConstOnce : Expr :=
  .mk (.shift (idE (.long false)) (litE (.int 9) (.long false)) false)
    (.long false) false false locD

/-- Folding exprShlNonConst twice: the right shift saturates to zero. -/
def exprShlNonConstTwice : Expr :=
  .mk (.literal (.unsignedInt 0)) (.long false) true false locD

/-- -(5) at type int: a foldable input for the constexpr invariant witness. -/
def exprNegFive : Expr :=
  .mk (.negate (litE (.int 5) (.int true))) (.int true) false false locD

def exprNegFiveResult : Expr :=
  .mk (.literal (.int (-5))) (.int true) true false locD

/-- struct with members int a; char b; char c (anonymous). -/
def memberA : CSym := .mk "a" (.int true) Qualifiers.NONE .auto false

def memberB : CSym := .mk "b" (.char true) Qualifiers.NONE .auto false

def memberC : CSym := .mk "c" (.char true) Qualifiers.NONE .auto false

def membersABC : SymList := .cons memberA (.cons memberB (.cons memberC .nil))

def structABC : CType := .struct (.anonymous membersABC)

/-- The bytes of the lexeme backslash-x f f between single quotes. -/
def bytesXff : List Nat := [39, 92, 120, 102, 102, 39]

/-- The bytes of the lexeme backslash-x f f f between single quotes. -/
def bytesXfff : List Nat := [39, 92, 120, 102, 102, 102, 39]

/-! ## The Lexer (src/lex/mod.rs)

The lexer state holds the SingleLocation (byte offset and file id), the
source bytes (the Rc<str>, as a byte list), the one-character current and
lookahead pushback caches, the seen-token-on-this-line flag, the line
counter and the warning queue of the error handler. -/

structure SingleLocation where
  offset : Nat
  file : Nat
deriving Repr, DecidableEq

/-- A lexer-revision Location: a byte span plus a file id (this revision of
src/lex/mod.rs builds locations from spans, unlike the line/column Location
of src/data/lex.rs used by fold.rs). -/
structure LexLocation where
  start : Nat
  stop : Nat
  file : Nat
deriving Repr, DecidableEq

structure LexState where
  location : SingleLocation
  chars : List Nat
  current : Option Nat
  lookahead : Option Nat
  seenLineToken : Bool
  line : Nat
  warnings : List (String × LexLocation)
deriving Repr, DecidableEq

/-- Lexer::new (src/lex/mod.rs lines 55-65). -/
def LexState.new (file : Nat) (chars : List Nat) : LexState :=
  { location := { offset := 0, file }, chars := chars,
    seenLineToken := false, line := 0, current := none, lookahead := none,
    warnings := [] }

/-- Lexer::next_char (src/lex/mod.rs lines 82-100): take the current
pushback (promoting the lookahead) or the byte at the offset; on success
advance the offset and update the line bookkeeping on newlines. -/
def nextChar (s : LexState) : Option Nat × LexState :=
  let (next, s1) : Option Nat × LexState :=
    match s.current with
    | some c => (some c, { s with current := s.lookahead, lookahead := none })
    | none => (s.chars.get? s.location.offset, s)
  match next with
  | none => (none, s1)
  | some c =>
    let s2 := { s1 with location := { s1.location with offset := s1.location.offset + 1 } }
    let s3 := if c = 10 then { s2 with seenLineToken := false, line := s2.line + 1 } else s2
    (some c, s3)

/-- Lexer::peek (src/lex/mod.rs lines 103-111): current, else the taken
lookahead, else the byte at the offset, cached into current. -/
def peek (s : LexState) : Option Nat × LexState :=
  match s.current with
  | some c => (some c, s)
  | none =>
    match s.lookahead with
    | some c => (some c, { s with current := some c, lookahead := none })
    | none =>
      match s.chars.get? s.location.offset with
      | some c => (some c, { s with current := some c })
      | none => (none, s)

/-- Lexer::peek_next (src/lex/mod.rs lines 112-120). -/
def peekNext (s : LexState) : Option Nat × LexState :=
  match s.lookahead with
  | some c => (some c, s)
  | none =>
    match s.chars.get? (s.location.offset + 1) with
    | some c => (some c, { s with lookahead := some c })
    | none => (none, s)

/-- Lexer::match_next (src/lex/mod.rs lines 123-130). -/
def matchNext (item : Nat) (s : LexState) : Bool × LexState :=
  let (c, s1) := peek s
  if c = some item then (true, (nextChar s1).2) else (false, s1)

/-- Lexer::span (src/lex/mod.rs lines 133-138). -/
def lexSpan (s : LexState) (start : Nat) : LexLocation :=
  { start := start, stop := s.location.offset, file := s.location.file }

/-- Push a warning, as ErrorHandler::warn does (FIFO). -/
def LexState.warn (s : LexState) (msg : String) (loc : LexLocation) : LexState :=
  { s with warnings := s.warnings ++ [(msg, loc)] }

/-- The termination measure for the lexer loops: pushback count plus twice
the unread byte count.  peek can grow it by at most one (caching a byte
into current without advancing the offset); next_char always shrinks it on
success. -/
def lexMeasure (s : LexState) : Nat :=
  (if s.current.isSome then 1 else 0) + (if s.lookahead.isSome then 1 else 0)
    + 2 * (s.chars.length - s.location.offset)

def optCount (o : Option Nat) : Nat := if o.isSome then 1 else 0

def nextCharSome_measure : ∀ (s : LexState) (c : Nat) (s' : LexState),
    nextChar s = (some c, s') → lexMeasure s' < lexMeasure s := by
  intro s c s' h
  rcases s with ⟨⟨off, file⟩, chars, cur, la, slt, line, w⟩
  cases cur with
  | some c0 =>
    by_cases hc : c0 = 10 <;>
      (simp only [nextChar, hc, if_true, if_false] at h
       simp only [Prod.mk.injEq] at h
       obtain ⟨h1, h2⟩ := h
       subst h2
       simp only [lexMeasure]
       cases la <;> simp <;> omega)
  | none =>
    cases hg : chars.get? off with
    | none => simp only [nextChar, hg] at h; simp at h
    | some c0 =>
      have hlt : off < chars.length := List.get?_eq_some.mp hg |>.1
      by_cases hc : c0 = 10 <;>
        (simp only [nextChar, hg, hc, if_true, if_false] at h
         simp only [Prod.mk.injEq] at h
         obtain ⟨h1, h2⟩ := h
         subst h2
         simp only [lexMeasure]
         cases la <;> simp <;> omega)

def nextCharNone_state : ∀ (s s' : LexState),
    nextChar s = (none, s') → s' = s ∧ s.current = none ∧
      s.chars.get? s.location.offset = none := by
  intro s s' h
  rcases s with ⟨⟨off, file⟩, chars, cur, la, slt, line, w⟩
  cases cur with
  | some c0 =>
    by_cases hc : c0 = 10 <;> simp only [nextChar, hc, if_true, if_false] at h <;> simp at h
  | none =>
    cases hg : chars.get? off with
    | none => simp only [nextChar, hg] at h; simp_all [nextChar, hg]
    | some c0 =>
      by_cases hc : c0 = 10 <;> simp only [nextChar, hg, hc, if_true, if_false] at h <;>
        simp at h

def peek_measure : ∀ (s : LexState) (c : Option Nat) (s' : LexState),
    peek s = (c, s') → lexMeasure s' ≤ lexMeasure s + 1 := by
  intro s c s' h
  rcases s with ⟨⟨off, file⟩, chars, cur, la, slt, line, w⟩
  cases cur with
  | some c0 =>
    simp only [peek, Prod.mk.injEq] at h
    obtain ⟨-, h2⟩ := h
    subst h2
    omega
  | none =>
    cases la with
    | some c1 =>
      simp only [peek, Prod.mk.injEq] at h
      obtain ⟨-, h2⟩ := h
      subst h2
      simp only [lexMeasure]
      simp <;> omega
    | none =>
      cases hg : chars.get? off with
      | none =>
        simp only [peek, hg, Prod.mk.injEq] at h
        obtain ⟨-, h2⟩ := h
        subst h2
        omega
      | some c0 =>
        simp only [peek, hg, Prod.mk.injEq] at h
        obtain ⟨-, h2⟩ := h
        subst h2
        simp only [lexMeasure]
        simp <;> omega

/-- After a successful peek, consuming via next_char strictly shrinks the
measure (relative to the state before the peek). -/
def peekThenNext_measure : ∀ (s : LexState) (c : Nat) (s' : LexState),
    peek s = (some c, s') → lexMeasure ((nextChar s').2) < lexMeasure s := by
  intro s c s' h
  rcases s with ⟨⟨off, file⟩, chars, cur, la, slt, line, w⟩
  cases cur with
  | some c0 =>
    simp only [peek, Prod.mk.injEq] at h
    obtain ⟨h1, h2⟩ := h
    subst h2
    by_cases hc : c0 = 10 <;>
      (simp only [nextChar, hc, if_true, if_false, lexMeasure]
       cases la <;> simp <;> omega)
  | none =>
    cases la with
    | some c1 =>
      simp only [peek, Prod.mk.injEq] at h
      obtain ⟨h1, h2⟩ := h
      subst h2
      by_cases hc : c1 = 10 <;>
        (simp only [nextChar, hc, if_true, if_false, lexMeasure]
         simp <;> omega)
    | none =>
      cases hg : chars.get? off with
      | none => simp only [peek, hg] at h; simp at h
      | some c0 =>
        have hlt : off < chars.length := (List.get?_eq_some.mp hg).1
        simp only [peek, hg, Prod.mk.injEq] at h
        obtain ⟨h1, h2⟩ := h
        subst h2
        by_cases hc : c0 = 10 <;>
          (simp only [nextChar, hc, if_true, if_false, lexMeasure]
           simp <;> omega)

def peekNone_state : ∀ (s : LexState) (s' : LexState),
    peek s = (none, s') → s' = s ∧ s.current = none ∧ s.lookahead = none ∧
      s.chars.get? s.location.offset = none := by
  intro s s' h
  rcases s with ⟨⟨off, file⟩, chars, cur, la, slt, line, w⟩
  cases cur with
  | some c0 => simp only [peek] at h; simp at h
  | none =>
    cases la with
    | some c1 => simp only [peek] at h; simp at h
    | none =>
      cases hg : chars.get? off with
      | none => simp only [peek, hg] at h; simp_all [peek, hg]
      | some c0 => simp only [peek, hg] at h; simp at h

/-- matchNext with a successful match strictly shrinks the measure. -/
def matchNextTrue_measure : ∀ (item : Nat) (s : LexState) (s' : LexState),
    matchNext item s = (true, s') → lexMeasure s' < lexMeasure s := by
  intro item s s' h
  have h' : (if (peek s).1 = some item then (true, (nextChar (peek s).2).2)
      else (false, (peek s).2)) = (true, s') := h
  by_cases hc : (peek s).1 = some item
  · rw [if_pos hc] at h'
    have h2 := congrArg Prod.snd h'
    simp only at h2
    rw [← h2]
    have hp : peek s = (some item, (peek s).2) := by
      rw [← hc]
    exact peekThenNext_measure s item (peek s).2 hp
  · rw [if_neg hc] at h'
    exact Bool.noConfusion (congrArg Prod.fst h')

def nextCharSome_info : ∀ (s : LexState) (c : Nat) (s' : LexState),
    nextChar s = (some c, s') →
      s'.chars = s.chars ∧ s'.location.offset = s.location.offset + 1 ∧
      (s.location.offset < s.chars.length →
        lexMeasure s' + 2 ≤ lexMeasure s) := by
  intro s c s' h
  rcases s with ⟨⟨off, file⟩, chars, cur, la, slt, line, w⟩
  cases cur with
  | some c0 =>
    by_cases hc : c0 = 10 <;>
      (simp only [nextChar, hc, if_true, if_false] at h
       simp only [Prod.mk.injEq] at h
       obtain ⟨h1, h2⟩ := h
       subst h2
       simp only [lexMeasure]
       cases la <;> simp <;> omega)
  | none =>
    cases hg : chars.get? off with
    | none => simp only [nextChar, hg] at h; simp at h
    | some c0 =>
      have hlt : off < chars.length := List.get?_eq_some.mp hg |>.1
      by_cases hc : c0 = 10 <;>
        (simp only [nextChar, hg, hc, if_true, if_false] at h
         simp only [Prod.mk.injEq] at h
         obtain ⟨h1, h2⟩ := h
         subst h2
         simp only [lexMeasure]
         cases la <;> simp <;> omega)

def peek_info : ∀ (s : LexState) (c : Option Nat) (s1 : LexState),
    peek s = (c, s1) →
      s1.chars = s.chars ∧ s1.location.offset = s.location.offset ∧
      (lexMeasure s1 ≤ lexMeasure s ∨
        (s.location.offset < s.chars.length ∧
          lexMeasure s1 ≤ lexMeasure s + 1)) := by
  intro s c s1 h
  rcases s with ⟨⟨off, file⟩, chars, cur, la, slt, line, w⟩
  cases cur with
  | some c0 =>
    simp only [peek, Prod.mk.injEq] at h
    obtain ⟨-, h2⟩ := h
    subst h2
    simp
  | none =>
    cases la with
    | some c1 =>
      simp only [peek, Prod.mk.injEq] at h
      obtain ⟨-, h2⟩ := h
      subst h2
      simp only [lexMeasure]
      simp
    | none =>
      cases hg : chars.get? off with
      | none =>
        simp only [peek, hg, Prod.mk.injEq] at h
        obtain ⟨-, h2⟩ := h
        subst h2
        simp
      | some c0 =>
        have hlt : off < chars.length := List.get?_eq_some.mp hg |>.1
        simp only [peek, hg, Prod.mk.injEq] at h
        obtain ⟨-, h2⟩ := h
        subst h2
        simp only [lexMeasure]
        simp
        omega

def peekSome_current : ∀ (s : LexState) (c : Nat) (s1 : LexState),
    peek s = (some c, s1) → s1.current = some c := by
  intro s c s1 h
  rcases s with ⟨⟨off, file⟩, chars, cur, la, slt, line, w⟩
  cases cur with
  | some c0 =>
    simp only [peek, Prod.mk.injEq] at h
    obtain ⟨h1, h2⟩ := h
    subst h2
    simp only [Option.some.injEq] at h1
    simp [h1]
  | none =>
    cases la with
    | some c1 =>
      simp only [peek, Prod.mk.injEq] at h
      obtain ⟨h1, h2⟩ := h
      subst h2
      simp only [Option.some.injEq] at h1
      simp [h1]
    | none =>
      cases hg : chars.get? off with
      | none => simp only [peek, hg] at h; simp at h
      | some c0 =>
        simp only [peek, hg, Prod.mk.injEq] at h
        obtain ⟨h1, h2⟩ := h
        subst h2
        simp only [Option.some.injEq] at h1
        simp [h1]

/-- Consuming a character and then peeking strictly shrinks the measure. -/
def nextThenPeek_measure : ∀ (s : LexState) (c : Nat) (s' : LexState)
    (p : Option Nat) (s2 : LexState),
    nextChar s = (some c, s') → peek s' = (p, s2) →
      lexMeasure s2 < lexMeasure s := by
  intro s c s' p s2 hn hp
  have hm := nextCharSome_measure s c s' hn
  obtain ⟨hch, hoff, hdrop⟩ := nextCharSome_info s c s' hn
  obtain ⟨hch2, hoff2, hcase⟩ := peek_info s' p s2 hp
  rcases hcase with hle | ⟨hlt, hle⟩
  · omega
  · have : s.location.offset < s.chars.length := by
      rw [hch] at hlt; omega
    have := hdrop this
    omega

/-- Rust u8::is_ascii_whitespace: space, tab, newline, form feed, CR. -/
def isAsciiWhitespace (b : Nat) : Bool :=
  decide (b = 32 ∨ b = 9 ∨ b = 10 ∨ b = 12 ∨ b = 13)

/-- Lexer::consume_whitespace (src/lex/mod.rs lines 143-147). -/
def consumeWhitespace (s : LexState) : LexState :=
  if h : (((peek s).1).map isAsciiWhitespace).getD false then
    consumeWhitespace (nextChar (peek s).2).2
  else (peek s).2
termination_by lexMeasure s
decreasing_by
  cases hc : (peek s).1 with
  | none => rw [hc] at h; simp at h
  | some w =>
    exact peekThenNext_measure s w (peek s).2 (by rw [← hc])

/-- Lexer::consume_line_comment (src/lex/mod.rs lines 152-158). -/
def consumeLineComment (s : LexState) : LexState :=
  match hn : (nextChar s).1 with
  | none => (nextChar s).2
  | some c =>
    if c = 10 then (nextChar s).2 else consumeLineComment (nextChar s).2
termination_by lexMeasure s
decreasing_by
  exact nextCharSome_measure s c (nextChar s).2 (by rw [← hn])

def cw_measure : ∀ s : LexState,
    lexMeasure (consumeWhitespace s) ≤ lexMeasure s + 1 := by
  intro s
  induction s using consumeWhitespace.induct with
  | case1 s h ih =>
    rw [consumeWhitespace, dif_pos h]
    have hlt : lexMeasure (nextChar (peek s).2).2 < lexMeasure s := by
      cases hc : (peek s).1 with
      | none => rw [hc] at h; simp at h
      | some w => exact peekThenNext_measure s w (peek s).2 (by rw [← hc])
    omega
  | case2 s h =>
    rw [consumeWhitespace, dif_neg h]
    exact peek_measure s (peek s).1 (peek s).2 rfl

/-- A lexer state with no pushback characters and an exhausted input. -/
def LexDrained (s : LexState) : Prop :=
  s.current = none ∧ s.lookahead = none ∧
    s.chars.get? s.location.offset = none

instance (s : LexState) : Decidable (LexDrained s) := by
  unfold LexDrained; infer_instance

def drained_peek : ∀ s : LexState, LexDrained s → peek s = (none, s) := by
  intro s hd
  obtain ⟨h1, h2, h3⟩ := hd
  rcases s with ⟨⟨off, file⟩, chars, cur, la, slt, line, w⟩
  simp only at h1 h2 h3
  subst h1; subst h2
  simp only [peek]
  rw [h3]

def drained_nextChar : ∀ s : LexState, LexDrained s → nextChar s = (none, s) := by
  intro s hd
  obtain ⟨h1, h2, h3⟩ := hd
  rcases s with ⟨⟨off, file⟩, chars, cur, la, slt, line, w⟩
  simp only at h1 h2 h3
  subst h1; subst h2
  simp only [nextChar]
  rw [h3]

def drained_cw : ∀ s : LexState, LexDrained s → consumeWhitespace s = s := by
  intro s hd
  rw [consumeWhitespace, drained_peek s hd]
  simp

/-- If next_char finds nothing after consume_whitespace, the state is
drained (in particular the lookahead pushback is empty, because the
whitespace loop always ends on a peek). -/
def cw_nextChar_none : ∀ (s : LexState) (r : LexState),
    nextChar (consumeWhitespace s) = (none, r) →
      r = consumeWhitespace s ∧ LexDrained (consumeWhitespace s) := by
  intro s
  induction s using consumeWhitespace.induct with
  | case1 s h ih =>
    intro r hr
    rw [consumeWhitespace, dif_pos h] at hr ⊢
    exact ih r hr
  | case2 s h =>
    intro r hr
    rw [consumeWhitespace, dif_neg h] at hr ⊢
    obtain ⟨hrs, hcur, hget⟩ := nextCharNone_state (peek s).2 r hr
    cases hc : (peek s).1 with
    | some w =>
      have := peekSome_current s w (peek s).2 (by rw [← hc])
      rw [this] at hcur
      exact Option.noConfusion hcur
    | none =>
      obtain ⟨heq, h1, h2, h3⟩ := peekNone_state s (peek s).2 (by rw [← hc])
      refine ⟨hrs, hcur, ?_, hget⟩
      rw [heq]
      exact h2

/-! ## Lexer tokens and errors (the token enum of the lexer revision in
src/lex/mod.rs: it includes Hash, and its parse_string carries the raw
byte vector) -/

inductive LexLiteral where
  | int (i : Int)
  | unsignedInt (u : Nat)
  | float (f : Float)
  | str (bytes : List Nat)
  | char (c : Nat)
deriving Repr

inductive LexToken where
  | hash
  | plusPlus
  | minusMinus
  | assignment (t : AssignmentToken)
  | comparison (t : ComparisonToken)
  | plus | minus | star | divide | mod | xor | ampersand
  | logicalAnd | bitwiseOr | logicalOr | binaryNot | logicalNot
  | shiftRight | shiftLeft
  | leftBrace | rightBrace | leftBracket | rightBracket | leftParen | rightParen
  | semicolon | colon | comma | dot | question
  | literal (l : LexLiteral)
  | id (name : String)
  | ellipsis
  | structDeref
deriving Repr

/-- The comparison data != Token::Hash of src/lex/mod.rs line 772. -/
def LexToken.isHash : LexToken → Bool
  | .hash => true
  | _ => false

inductive LexErrorKind where
  | unterminatedComment
  | generic (msg : String)
deriving Repr, DecidableEq

structure LexCompileError where
  data : LexErrorKind
  location : LexLocation
deriving Repr, DecidableEq

structure LocTok where
  data : LexToken
  location : LexLocation
deriving Repr

/-- Lexer::consume_multi_comment (src/lex/mod.rs lines 163-175), with the
start offset already computed. -/
def consumeMultiCommentLoop (start : Nat) (s : LexState) :
    Except LexCompileError Unit × LexState :=
  match hn : (nextChar s).1 with
  | none =>
    (.error ⟨.unterminatedComment, lexSpan (nextChar s).2 start⟩, (nextChar s).2)
  | some c =>
    if c = 42 then
      match hp : (peek (nextChar s).2).1 with
      | some 47 =>
        (.ok (), (nextChar (peek (nextChar s).2).2).2)
      | _ => consumeMultiCommentLoop start (peek (nextChar s).2).2
    else consumeMultiCommentLoop start (nextChar s).2
termination_by lexMeasure s
decreasing_by
  · exact nextThenPeek_measure s c (nextChar s).2 (peek (nextChar s).2).1
      (peek (nextChar s).2).2 (by rw [← hn]) rfl
  · exact nextCharSome_measure s c (nextChar s).2 (by rw [← hn])

def consumeMultiComment (s : LexState) : Except LexCompileError Unit × LexState :=
  consumeMultiCommentLoop (s.location.offset - 2) s

def cmc_measure : ∀ (start : Nat) (s : LexState),
    lexMeasure (consumeMultiCommentLoop start s).2 ≤ lexMeasure s := by
  intro start
  refine consumeMultiCommentLoop.induct start
    (fun s => lexMeasure (consumeMultiCommentLoop start s).2 ≤ lexMeasure s)
    ?_ ?_ ?_ ?_
  · intro x hn
    rw [consumeMultiCommentLoop]
    split
    · obtain ⟨heq2, -, -⟩ := nextCharNone_state x (nextChar x).2 (by rw [← hn])
      rw [heq2]
    · rename_i c heq
      rw [hn] at heq
      cases heq
  · intro x hp hn
    have h2 : lexMeasure (nextChar x).2 < lexMeasure x :=
      nextCharSome_measure x 42 (nextChar x).2 (by rw [← hn])
    have h1 : lexMeasure (nextChar (peek (nextChar x).2).2).2
        < lexMeasure (nextChar x).2 :=
      peekThenNext_measure (nextChar x).2 47 (peek (nextChar x).2).2
        (by rw [← hp])
    rw [consumeMultiCommentLoop]
    split
    · rename_i heq
      rw [hn] at heq
      cases heq
    · rename_i c heq
      rw [hn] at heq
      injection heq with heqc
      subst heqc
      rw [if_pos rfl]
      split
      · exact le_of_lt (show
          lexMeasure (nextChar (peek (nextChar x).2).2).2 < lexMeasure x by
            omega)
      · rename_i hne
        exact absurd hp hne
  · intro x hp hn ih
    have h1 : lexMeasure (peek (nextChar x).2).2 < lexMeasure x :=
      nextThenPeek_measure x 42 (nextChar x).2 (peek (nextChar x).2).1
        (peek (nextChar x).2).2 (by rw [← hn]) rfl
    rw [consumeMultiCommentLoop]
    split
    · rename_i heq
      rw [hn] at heq
      cases heq
    · rename_i c heq
      rw [hn] at heq
      injection heq with heqc
      subst heqc
      rw [if_pos rfl]
      split
      · rename_i heq2
        exact absurd heq2 hp
      · omega
  · intro x c hn hc ih
    have h2 : lexMeasure (nextChar x).2 < lexMeasure x :=
      nextCharSome_measure x c (nextChar x).2 (by rw [← hn])
    rw [consumeMultiCommentLoop]
    split
    · rename_i heq
      rw [hn] at heq
      cases heq
    · rename_i c2 heq
      rw [hn] at heq
      injection heq with heqc
      subst heqc
      rw [if_neg hc]
      omega

/-- CharError (src/lex/mod.rs lines 41-45). -/
inductive CharError where
  | eof
  | newline
  | terminator
deriving Repr, DecidableEq

/-- The non-recursive escape arms of the match in Lexer::parse_single_char
(src/lex/mod.rs lines 413-432), split out of parseSingleChar below so that
each definition stays small: the simple escapes yield their value, an
unknown escape warns (the Rust format string "unknown character escape"
followed by the character, paraphrased without the quoting punctuation)
and yields the literal character. -/
def escapeChar (c2 : Nat) (s2 : LexState) : Except CharError Nat × LexState :=
  if c2 = 110 then (.ok 10, s2)
  else if c2 = 114 then (.ok 13, s2)
  else if c2 = 116 then (.ok 9, s2)
  else if c2 = 34 then (.ok 34, s2)
  else if c2 = 39 then (.ok 39, s2)
  else if c2 = 92 then (.ok 92, s2)
  else if c2 = 48 then (.ok 0, s2)
  else if c2 = 97 then (.ok 7, s2)
  else if c2 = 98 then (.ok 8, s2)
  else if c2 = 118 then (.ok 11, s2)
  else if c2 = 102 then (.ok 12, s2)
  else if c2 = 63 then (.ok 63, s2)
  else
    (.ok c2, s2.warn ("unknown character escape " ++ toString c2)
      (lexSpan s2 (s2.location.offset - 1)))

/-- Lexer::parse_single_char (src/lex/mod.rs lines 404-446): one logical
character (this revision knows only the simple escapes; an unknown escape
warns and yields the literal character; the warning text is the Rust
format string "unknown character escape" followed by the character,
paraphrased here without the quoting punctuation). -/
def parseSingleChar (stringMode : Bool) (s : LexState) :
    Except CharError Nat × LexState :=
  -- the terminator is a double quote when lexing a string, else a single
  -- quote (the let-binding of the source is inlined below)
  match h1 : (nextChar s).1 with
  | none => (.error .eof, (nextChar s).2)
  | some c =>
    if c = 92 then
      match h2 : (nextChar (nextChar s).2).1 with
      | none => (.error .eof, (nextChar (nextChar s).2).2)
      | some c2 =>
        if c2 = 10 then parseSingleChar stringMode (nextChar (nextChar s).2).2
        else escapeChar c2 (nextChar (nextChar s).2).2
    else if c = 10 then (.error .newline, (nextChar s).2)
    else if c = (if stringMode then 34 else 39) then
      (.error .terminator, (nextChar s).2)
    else (.ok c, (nextChar s).2)
termination_by lexMeasure s
decreasing_by
  have hx1 : lexMeasure (nextChar s).2 < lexMeasure s :=
    nextCharSome_measure s c (nextChar s).2 (by rw [← h1])
  have hx2 : lexMeasure (nextChar (nextChar s).2).2 < lexMeasure (nextChar s).2 :=
    nextCharSome_measure (nextChar s).2 c2 (nextChar (nextChar s).2).2
      (by rw [← h2])
  omega

def warn_measure : ∀ (s : LexState) (msg : String) (loc : LexLocation),
    lexMeasure (s.warn msg loc) = lexMeasure s := by
  intro s msg loc
  rcases s with ⟨⟨off, file⟩, chars, cur, la, slt, line, w⟩
  rfl

def escapeChar_measure : ∀ (c2 : Nat) (s2 : LexState)
    (r : Except CharError Nat) (s' : LexState),
    escapeChar c2 s2 = (r, s') →
      lexMeasure s' = lexMeasure s2 ∧ r ≠ .error .eof := by
  intro c2 s2 r s' h
  unfold escapeChar at h
  by_cases hv0 : c2 = 110
  · rw [if_pos hv0] at h
    simp only [Prod.mk.injEq] at h
    obtain ⟨hr, hs⟩ := h
    subst hs
    rw [← hr]
    exact ⟨rfl, fun hcon => Except.noConfusion hcon⟩
  · rw [if_neg hv0] at h
    by_cases hv1 : c2 = 114
    · rw [if_pos hv1] at h
      simp only [Prod.mk.injEq] at h
      obtain ⟨hr, hs⟩ := h
      subst hs
      rw [← hr]
      exact ⟨rfl, fun hcon => Except.noConfusion hcon⟩
    · rw [if_neg hv1] at h
      by_cases hv2 : c2 = 116
      · rw [if_pos hv2] at h
        simp only [Prod.mk.injEq] at h
        obtain ⟨hr, hs⟩ := h
        subst hs
        rw [← hr]
        exact ⟨rfl, fun hcon => Except.noConfusion hcon⟩
      · rw [if_neg hv2] at h
        by_cases hv3 : c2 = 34
        · rw [if_pos hv3] at h
          simp only [Prod.mk.injEq] at h
          obtain ⟨hr, hs⟩ := h
          subst hs
          rw [← hr]
          exact ⟨rfl, fun hcon => Except.noConfusion hcon⟩
        · rw [if_neg hv3] at h
          by_cases hv4 : c2 = 39
          · rw [if_pos hv4] at h
            simp only [Prod.mk.injEq] at h
            obtain ⟨hr, hs⟩ := h
            subst hs
            rw [← hr]
            exact ⟨rfl, fun hcon => Except.noConfusion hcon⟩
          · rw [if_neg hv4] at h
            by_cases hv5 : c2 = 92
            · rw [if_pos hv5] at h
              simp only [Prod.mk.injEq] at h
              obtain ⟨hr, hs⟩ := h
              subst hs
              rw [← hr]
              exact ⟨rfl, fun hcon => Except.noConfusion hcon⟩
            · rw [if_neg hv5] at h
              by_cases hv6 : c2 = 48
              · rw [if_pos hv6] at h
                simp only [Prod.mk.injEq] at h
                obtain ⟨hr, hs⟩ := h
                subst hs
                rw [← hr]
                exact ⟨rfl, fun hcon => Except.noConfusion hcon⟩
              · rw [if_neg hv6] at h
                by_cases hv7 : c2 = 97
                · rw [if_pos hv7] at h
                  simp only [Prod.mk.injEq] at h
                  obtain ⟨hr, hs⟩ := h
                  subst hs
                  rw [← hr]
                  exact ⟨rfl, fun hcon => Except.noConfusion hcon⟩
                · rw [if_neg hv7] at h
                  by_cases hv8 : c2 = 98
                  · rw [if_pos hv8] at h
                    simp only [Prod.mk.injEq] at h
                    obtain ⟨hr, hs⟩ := h
                    subst hs
                    rw [← hr]
                    exact ⟨rfl, fun hcon => Except.noConfusion hcon⟩
                  · rw [if_neg hv8] at h
                    by_cases hv9 : c2 = 118
                    · rw [if_pos hv9] at h
                      simp only [Prod.mk.injEq] at h
                      obtain ⟨hr, hs⟩ := h
                      subst hs
                      rw [← hr]
                      exact ⟨rfl, fun hcon => Except.noConfusion hcon⟩
                    · rw [if_neg hv9] at h
                      by_cases hv10 : c2 = 102
                      · rw [if_pos hv10] at h
                        simp only [Prod.mk.injEq] at h
                        obtain ⟨hr, hs⟩ := h
                        subst hs
                        rw [← hr]
                        exact ⟨rfl, fun hcon => Except.noConfusion hcon⟩
                      · rw [if_neg hv10] at h
                        by_cases hv11 : c2 = 63
                        · rw [if_pos hv11] at h
                          simp only [Prod.mk.injEq] at h
                          obtain ⟨hr, hs⟩ := h
                          subst hs
                          rw [← hr]
                          exact ⟨rfl, fun hcon => Except.noConfusion hcon⟩
                        · rw [if_neg hv11] at h
                          simp only [Prod.mk.injEq] at h
                          obtain ⟨hr, hs⟩ := h
                          subst hs
                          rw [← hr]
                          exact ⟨warn_measure s2 _ _, fun hcon => Except.noConfusion hcon⟩

/-- parse_single_char never grows the measure, and shrinks it except
possibly when it reports end of input. -/
def psc_measure : ∀ (mode : Bool) (s : LexState) (r : Except CharError Nat)
    (s' : LexState), parseSingleChar mode s = (r, s') →
      lexMeasure s' ≤ lexMeasure s ∧
      (r ≠ .error .eof → lexMeasure s' < lexMeasure s) := by
  intro mode s r s'
  generalize hgen : lexMeasure s = n
  induction n using Nat.strong_induction_on generalizing s r s' with
  | _ n ih =>
  intro h
  subst hgen
  rw [parseSingleChar] at h
  split at h
  · rename_i heq
    obtain ⟨heq2, -, -⟩ := nextCharNone_state s (nextChar s).2 (by rw [← heq])
    simp only [Prod.mk.injEq] at h
    obtain ⟨hr, hs⟩ := h
    subst hs
    rw [heq2]
    exact ⟨le_rfl, fun hne => absurd hr.symm hne⟩
  · rename_i c heq
    have hx1 : lexMeasure (nextChar s).2 < lexMeasure s :=
      nextCharSome_measure s c (nextChar s).2 (by rw [← heq])
    split at h
    · -- backslash escape
      split at h
      · rename_i heq2
        obtain ⟨heq3, -, -⟩ := nextCharNone_state (nextChar s).2
          (nextChar (nextChar s).2).2 (by rw [← heq2])
        simp only [Prod.mk.injEq] at h
        obtain ⟨hr, hs⟩ := h
        subst hs
        rw [heq3]
        exact ⟨le_of_lt hx1, fun _ => hx1⟩
      · rename_i c2 heq2
        have hx2 : lexMeasure (nextChar (nextChar s).2).2
            < lexMeasure (nextChar s).2 :=
          nextCharSome_measure (nextChar s).2 c2 (nextChar (nextChar s).2).2
            (by rw [← heq2])
        split at h
        · -- escaped newline: recurse
          obtain ⟨ha, -⟩ := ih (lexMeasure (nextChar (nextChar s).2).2)
            (by omega) (nextChar (nextChar s).2).2 r s' rfl h
          exact ⟨by omega, fun _ => by omega⟩
        · obtain ⟨ha, -⟩ := escapeChar_measure _ _ _ _ h
          exact ⟨by omega, fun _ => by omega⟩
    · -- plain byte, newline or terminator
      repeat' split at h
      all_goals
        (simp only [Prod.mk.injEq] at h
         obtain ⟨hr, hs⟩ := h
         subst hs
         exact ⟨le_of_lt hx1, fun _ => hx1⟩)

/-- consume_until_quote, the helper inside Lexer::parse_char
(src/lex/mod.rs lines 452-460). -/
def consumeUntilQuote (s : LexState) : LexState :=
  match hq : parseSingleChar false s with
  | (.ok 39, s') => s'
  | (.error _, s') => s'
  | (.ok _, s') => consumeUntilQuote s'
termination_by lexMeasure s
decreasing_by
  exact (psc_measure false s (.ok _) s' hq).2 (by intro hcon; cases hcon)

/-- Lexer::parse_char (src/lex/mod.rs lines 451-485).  The messages about
a missing terminating quote are paraphrased without the quote character
itself. -/
def parseChar (s : LexState) : Except String LexToken × LexState :=
  match parseSingleChar false s with
  | (.ok c, s1) =>
    if c < 128 then    -- c.is_ascii()
      match (nextChar s1).1 with
      | some 39 => (.ok (.literal (.char c)), (nextChar s1).2)
      | some 10 =>
        (.error ("Illegal newline while parsing char literal"), (nextChar s1).2)
      | none =>
        (.error ("Missing terminating quote character in char literal"),
          (nextChar s1).2)
      | some _ =>
        (.error ("Multi-character character literal"),
          consumeUntilQuote (nextChar s1).2)
    else
      (.error ("Multi-byte unicode character literal"), consumeUntilQuote s1)
  | (.error .eof, s1) =>
    (.error ("Missing terminating quote character in char literal"), s1)
  | (.error .newline, s1) =>
    (.error ("Illegal newline while parsing char literal"), s1)
  | (.error .terminator, s1) => (.error ("Empty character constant"), s1)

/-- The inner loop of Lexer::parse_string (src/lex/mod.rs lines 498-511):
push logical characters until the terminator. -/
def parseStringBody (literal : List Nat) (s : LexState) :
    Except String (List Nat) × LexState :=
  match hq : parseSingleChar true s with
  | (.ok c, s') => parseStringBody (literal ++ [c]) s'
  | (.error .eof, s') =>
    (.error ("Missing terminating \" character in string literal"), s')
  | (.error .newline, s') =>
    (.error ("Illegal newline while parsing string literal"), s')
  | (.error .terminator, s') => (.ok literal, s')
termination_by lexMeasure s
decreasing_by
  exact (psc_measure true s (.ok c) s' hq).2 (by intro hcon; cases hcon)

def psb_measure : ∀ (lit : List Nat) (s : LexState)
    (res : Except String (List Nat)) (s3 : LexState),
    parseStringBody lit s = (res, s3) →
      lexMeasure s3 ≤ lexMeasure s ∧
      (∀ l2, res = .ok l2 → lexMeasure s3 < lexMeasure s) := by
  intro lit s res s3
  generalize hgen : lexMeasure s = n
  induction n using Nat.strong_induction_on generalizing lit s res s3 with
  | _ n ih =>
  intro h
  subst hgen
  rw [parseStringBody] at h
  split at h
  · rename_i c s' hq
    obtain ⟨hle, hlt⟩ := psc_measure true s (.ok c) s' hq
    have hlt2 := hlt (by intro hcon; cases hcon)
    obtain ⟨ha, hb⟩ := ih (lexMeasure s') (by omega) (lit ++ [c]) s' res s3 rfl h
    exact ⟨by omega, fun l2 hok => by have := hb l2 hok; omega⟩
  · rename_i s' hq
    obtain ⟨hle, -⟩ := psc_measure true s _ s' hq
    simp only [Prod.mk.injEq] at h
    obtain ⟨hr, hs⟩ := h
    subst hs
    subst hr
    exact ⟨hle, fun l2 hok => Except.noConfusion hok⟩
  · rename_i s' hq
    obtain ⟨hle, -⟩ := psc_measure true s _ s' hq
    simp only [Prod.mk.injEq] at h
    obtain ⟨hr, hs⟩ := h
    subst hs
    subst hr
    exact ⟨hle, fun l2 hok => Except.noConfusion hok⟩
  · rename_i s' hq
    obtain ⟨hle, hstrict⟩ := psc_measure true s _ s' hq
    simp only [Prod.mk.injEq] at h
    obtain ⟨hr, hs⟩ := h
    subst hs
    exact ⟨hle, fun l2 hok => hstrict (by
      intro hcon
      injection hcon with h2
      cases h2)⟩

/-- The outer loop of Lexer::parse_string (src/lex/mod.rs lines 493-516):
adjacent string literals separated by whitespace are concatenated, and a
terminating NUL byte is appended. -/
def parseStringLoop (literal : List Nat) (s : LexState) :
    Except String LexLiteral × LexState :=
  if hp : (peek s).1 = some 34 then
    match hb : parseStringBody literal (nextChar (peek s).2).2 with
    | (.error e, s3) => (.error e, s3)
    | (.ok lit2, s3) => parseStringLoop lit2 (consumeWhitespace s3)
  else
    (.ok (.str (literal ++ [0])), (peek s).2)
termination_by lexMeasure s
decreasing_by
  have h1 : lexMeasure (nextChar (peek s).2).2 < lexMeasure s :=
    peekThenNext_measure s 34 (peek s).2 (by rw [← hp])
  have h2 := (psb_measure literal (nextChar (peek s).2).2 (.ok lit2) s3 hb).2
    lit2 rfl
  have h3 := cw_measure s3
  omega

def parseString (s : LexState) : Except String LexToken × LexState :=
  match parseStringLoop [] s with
  | (.ok l, s') => (.ok (.literal l), s')
  | (.error e, s') => (.error e, s')

/-- The loop of Lexer::parse_id (src/lex/mod.rs lines 520-533). -/
def parseIdLoop (id : String) (s : LexState) : String × LexState :=
  match hp : (peek s).1 with
  | some c =>
    if (48 ≤ c ∧ c ≤ 57) ∨ (97 ≤ c ∧ c ≤ 122) ∨ (65 ≤ c ∧ c ≤ 90) ∨ c = 95 then
      parseIdLoop (id.push (Char.ofNat c)) (nextChar (peek s).2).2
    else (id, (peek s).2)
  | none => (id, (peek s).2)
termination_by lexMeasure s
decreasing_by
  exact peekThenNext_measure s c (peek s).2 (by rw [← hp])

/-- Lexer::parse_id: identifiers are interned; the interner is modelled by
the string itself. -/
def parseId (start : Nat) (s : LexState) : Except String LexToken × LexState :=
  match parseIdLoop (String.push "" (Char.ofNat start)) s with
  | (name, s') => (.ok (.id name), s')

/-! ## Number lexing (src/lex/mod.rs lines 185-397) -/

def radixName (radix : Nat) : String :=
  match radix with
  | 2 => "binary"
  | 8 => "octal"
  | 10 => "decimal"
  | _ => "hexadecimal"

/-- char::to_digit(16) on a byte. -/
def charToDigit16 (c : Nat) : Option Nat :=
  if 48 ≤ c ∧ c ≤ 57 then some (c - 48)
  else if 97 ≤ c ∧ c ≤ 102 then some (c - 87)
  else if 65 ≤ c ∧ c ≤ 70 then some (c - 55)
  else none

/-- char::is_digit(radix) on a byte, for radix up to 16. -/
def isDigitRadix (radix : Nat) (c : Nat) : Bool :=
  match charToDigit16 c with
  | some d => d < radix
  | none => false

/-- The parse_digit closure inside Lexer::parse_int (src/lex/mod.rs lines
341-360): digits beyond the radix that could continue the token (b, e, f)
end the number, any other is an invalid-digit error. -/
def parseDigit (radix : Nat) (c : Nat) : Except String (Option Nat) :=
  match charToDigit16 c with
  | none => .ok none
  | some digit =>
    if digit < radix then .ok (some digit)
    else if digit = 11 ∨ digit = 14 ∨ digit = 15 then .ok none
    else .error ("invalid digit " ++ toString digit ++ " in "
      ++ radixName radix ++ " constant")

/-- The loop of Lexer::parse_int (src/lex/mod.rs lines 335-397): u64
accumulation by checked multiply-then-add; after an overflow the remaining
digits are consumed (err mode) so no bogus token follows. -/
def parseIntLoop (radix : Nat) (acc : Nat) (buf : String) (err sawDigit : Bool)
    (s : LexState) : Except String (Option Nat) × String × LexState :=
  match hp : (peek s).1 with
  | none =>
    (if err then .error ("overflow parsing integer literal")
     else if !sawDigit then .ok none
     else .ok (some acc), buf, (peek s).2)
  | some c =>
    if err then parseIntLoop radix acc buf true sawDigit (nextChar (peek s).2).2
    else
      match parseDigit radix c with
      | .error e => (.error e, buf, (peek s).2)
      | .ok none =>
        (if !sawDigit then .ok none else .ok (some acc), buf, (peek s).2)
      | .ok (some d) =>
        if acc * radix + d < 2^64 then
          parseIntLoop radix (acc * radix + d) (buf.push (Char.ofNat c)) err
            true (nextChar (peek s).2).2
        else
          parseIntLoop radix acc (buf.push (Char.ofNat c)) true true
            (nextChar (peek s).2).2
termination_by lexMeasure s
decreasing_by
  all_goals
    exact peekThenNext_measure s c (peek s).2 (by rw [← hp])

def parseInt (acc : Nat) (radix : Nat) (buf : String) (s : LexState) :
    Except String (Option Nat) × String × LexState :=
  parseIntLoop radix acc buf false false s

/-- Lexer::consume_float_suffix (src/lex/mod.rs lines 279-284). -/
def consumeFloatSuffix (s : LexState) : LexState :=
  match matchNext 102 s with
  | (true, s1) => s1
  | (false, s1) =>
    match matchNext 70 s1 with
    | (true, s2) => s2
    | (false, s2) =>
      match matchNext 108 s2 with
      | (true, s3) => s3
      | (false, s3) => (matchNext 76 s3).2

/-- The external float-parsing collaborators of Lexer::parse_exponent
(hexf_parse::parse_hexf64 and the Rust standard library FromStr for f64)
are crates outside this repository; no theorem in this file depends on the
parsed numeric value, and they are modelled as a total stand-in returning
a finite nonzero value. -/
def externParseF64 (hex : Bool) (buf : String) : Except String Float :=
  let _ := hex
  let _ := buf
  .ok 1.5

/-- The digit loop at the end of Lexer::parse_exponent (src/lex/mod.rs
lines 307-314). -/
def expDigitsLoop (buf : String) (s : LexState) : String × LexState :=
  match hp : (peek s).1 with
  | some c =>
    if 48 ≤ c ∧ c ≤ 57 then
      expDigitsLoop (buf.push (Char.ofNat c)) (nextChar (peek s).2).2
    else (buf, (peek s).2)
  | none => (buf, (peek s).2)
termination_by lexMeasure s
decreasing_by
  exact peekThenNext_measure s c (peek s).2 (by rw [← hp])

/-- The is_digit closure of Lexer::parse_exponent (src/lex/mod.rs lines
287-291): a decimal digit or an explicit sign. -/
def expIsDigit (c : Option Nat) : Bool :=
  match c with
  | some c => decide ((48 ≤ c ∧ c ≤ 57) ∨ c = 43 ∨ c = 45)
  | none => false

/-- Whether every byte of the buffer is one of . + - e p 0 (the
should_be_zero test of Lexer::parse_exponent, lines 324-327). -/
def bufShouldBeZero (buf : String) : Bool :=
  buf.toList.all (fun ch =>
    ch = ('.') || ch = ('+') || ch = ('-') || ch = ('e') || ch = ('p')
      || ch = ('0'))

/-- The common tail of Lexer::parse_exponent (src/lex/mod.rs lines
307-333): trailing digits, the external parse, and the overflow and
underflow checks. -/
def parseExponentTail (hex : Bool) (buf : String) (s : LexState) :
    Except String Float × LexState :=
  match expDigitsLoop buf s with
  | (buf2, s1) =>
    match externParseF64 hex buf2 with
    | .error e => (.error e, s1)
    | .ok float =>
      if float.isInf then
        (.error ("overflow parsing floating literal"), s1)
      else if Float.beq float 0.0 && !(bufShouldBeZero buf2) then
        (.error ("underflow parsing floating literal"), s1)
      else (.ok float, s1)

/-- After the exponent marker: the exponent must start with a digit or a
sign, which is pushed onto the buffer (src/lex/mod.rs lines 294-306). -/
def parseExponentMarked (hex : Bool) (marker : Nat) (buf : String)
    (s : LexState) : Except String Float × LexState :=
  if expIsDigit (peek s).1 then
    match nextChar (peek s).2 with
    | (c?, s2) =>
      parseExponentTail hex
        ((buf.push (Char.ofNat marker)).push (Char.ofNat (c?.getD 0))) s2
  else
    (.error ("exponent for floating literal has no digits"), (peek s).2)

/-- Lexer::parse_exponent (src/lex/mod.rs lines 286-333). -/
def parseExponent (hex : Bool) (buf : String) (s : LexState) :
    Except String Float × LexState :=
  if hex then
    match matchNext 112 s with
    | (true, s1) => parseExponentMarked hex 112 buf s1
    | (false, s1) =>
      match matchNext 80 s1 with
      | (true, s2) => parseExponentMarked hex 112 buf s2
      | (false, s2) => parseExponentTail hex buf s2
  else
    match matchNext 101 s with
    | (true, s1) => parseExponentMarked hex 101 buf s1
    | (false, s1) =>
      match matchNext 69 s1 with
      | (true, s2) => parseExponentMarked hex 101 buf s2
      | (false, s2) => parseExponentTail hex buf s2

/-- The fraction-digit loop of Lexer::parse_float (src/lex/mod.rs lines
263-271). -/
def floatDigitsLoop (radix : Nat) (buf : String) (s : LexState) :
    String × LexState :=
  match hp : (peek s).1 with
  | some c =>
    if isDigitRadix radix c then
      floatDigitsLoop radix (buf.push (Char.ofNat c)) (nextChar (peek s).2).2
    else (buf, (peek s).2)
  | none => (buf, (peek s).2)
termination_by lexMeasure s
decreasing_by
  exact peekThenNext_measure s c (peek s).2 (by rw [← hp])

/-- Lexer::parse_float (src/lex/mod.rs lines 260-278): the fraction, the
exponent and the suffix (the suffix is consumed whether or not the
exponent parse failed). -/
def parseFloat (radix : Nat) (buf : String) (s : LexState) :
    Except String Float × LexState :=
  match floatDigitsLoop radix (buf.push ('.')) s with
  | (buf2, s1) =>
    match parseExponent (radix == 16) buf2 s1 with
    | (res, s2) => (res, consumeFloatSuffix s2)

/-- The integer-suffix tail of Lexer::parse_num (src/lex/mod.rs lines
237-257): u/U makes the literal unsigned, l/L (or ll/LL) is consumed and
ignored, and binary literals warn.  Split out of parseNum to keep each
definition small. -/
def parseNumSuffix (radix spanStart : Nat) (digits : Nat) (s : LexState) :
    Except String LexToken × LexState :=
  match matchNext 117 s with
  | (true, s1) => parseNumFinish radix spanStart (.unsignedInt digits) s1
  | (false, s1) =>
    match matchNext 85 s1 with
    | (true, s2) => parseNumFinish radix spanStart (.unsignedInt digits) s2
    | (false, s2) =>
      if digits < 2^63 then
        parseNumFinish radix spanStart (.int (digits : Int)) s2
      else
        (.error ("overflow while parsing signed integer literal"), s2)
where
  /-- lines 246-257: discard l/ll/L/LL, then the binary-extension warning. -/
  parseNumFinish (radix spanStart : Nat) (lit : LexLiteral) (s : LexState) :
      Except String LexToken × LexState :=
    let after : LexState → Except String LexToken × LexState := fun s8 =>
      if radix = 2 then
        (.ok (.literal lit),
          s8.warn ("binary number literals are an extension") (lexSpan s8 spanStart))
      else (.ok (.literal lit), s8)
    match matchNext 108 s with
    | (true, s6) => after (matchNext 108 s6).2
    | (false, s6) =>
      match matchNext 76 s6 with
      | (true, s7) => after (matchNext 76 s7).2
      | (false, s7) => after s7

/-- The continuation of Lexer::parse_num after the leading digits have
been read (src/lex/mod.rs lines 228-257): a dot continues as a float, an
exponent marker continues as a float with ".0" appended to the buffer,
anything else is an integer with optional suffixes. -/
def parseNumAfterDigits (radix spanStart : Nat) (digits : Nat) (buf : String)
    (s : LexState) : Except String LexToken × LexState :=
  match matchNext 46 s with
  | (true, s3) =>
    match parseFloat radix buf s3 with
    | (.ok f, s4) => (.ok (.literal (.float f)), s4)
    | (.error e, s4) => (.error e, s4)
  | (false, s3) =>
    match peek s3 with
    | (p, s4) =>
      if p = some 101 ∨ p = some 69 ∨ p = some 112 ∨ p = some 80 then
        match parseExponent (radix == 16) (buf ++ ".0") s4 with
        | (res, s5) =>
          match res with
          | .ok f => (.ok (.literal (.float f)), consumeFloatSuffix s5)
          | .error e => (.error e, consumeFloatSuffix s5)
      else
        parseNumSuffix radix spanStart digits s4

/-- Lexer::parse_num (src/lex/mod.rs lines 185-258): radix detection,
the digit loop, and the continuations above. -/
def parseNum (start : Nat) (s : LexState) : Except String LexToken × LexState :=
  -- span_start = self.location.offset - 1 (start is already consumed)
  parseNumRadix start (s.location.offset - 1) s
where
  parseNumRadix (start spanStart : Nat) (s : LexState) :
      Except String LexToken × LexState :=
    if start = 48 then
      match matchNext 98 s with
      | (true, s1) =>
        parseNumBody start spanStart 2 (String.push "" (Char.ofNat start)) s1
      | (false, s1) =>
        match matchNext 120 s1 with
        | (true, s2) =>
          parseNumBody start spanStart 16
            ((String.push "" (Char.ofNat start)).push ('x')) s2
        | (false, s2) =>
          match matchNext 46 s2 with
          | (true, s3) =>
            -- float of the form 0.431
            match parseFloat 10 (String.push "" (Char.ofNat start)) s3 with
            | (.ok f, s4) => (.ok (.literal (.float f)), s4)
            | (.error e, s4) => (.error e, s4)
          | (false, s3) =>
            parseNumBody start spanStart 8 (String.push "" (Char.ofNat start)) s3
    else
      parseNumBody start spanStart 10 (String.push "" (Char.ofNat start)) s
  /-- lines 212-227: the first digit group, with the missing-digits check
  for binary and hexadecimal prefixes. -/
  parseNumBody (start spanStart radix : Nat) (buf : String) (s : LexState) :
      Except String LexToken × LexState :=
    match parseInt (start - 48) radix buf s with
    | (.error e, _, s2) => (.error e, s2)
    | (.ok (some digits), buf2, s2) =>
      parseNumAfterDigits radix spanStart digits buf2 s2
    | (.ok none, buf2, s2) =>
      if radix = 8 ∨ radix = 10 then
        parseNumAfterDigits radix spanStart (start - 48) buf2 s2
      else
        match peek s2 with
        | (p, s3) =>
          if p = some 46 then
            parseNumAfterDigits radix spanStart (start - 48) buf2 s3
          else
            (.error ("missing digits to "
              ++ (if radix = 2 then "binary" else "hexadecimal")
              ++ " integer constant"), s3)

def clc_le : ∀ s : LexState,
    lexMeasure (consumeLineComment s) ≤ lexMeasure s := by
  intro s
  generalize hgen : lexMeasure s = n
  induction n using Nat.strong_induction_on generalizing s with
  | _ n ih =>
  subst hgen
  rw [consumeLineComment]
  split
  · rename_i hn
    obtain ⟨heq, -, -⟩ := nextCharNone_state s (nextChar s).2 (by rw [← hn])
    rw [heq]
  · rename_i c hn
    have hm := nextCharSome_measure s c (nextChar s).2 (by rw [← hn])
    split
    · omega
    · have := ih (lexMeasure (nextChar s).2) (by omega) (nextChar s).2 rfl
      omega

def nextChar_of_current : ∀ (s : LexState) (c : Nat),
    s.current = some c → (nextChar s).1 = some c := by
  intro s c h
  rcases s with ⟨⟨off, file⟩, chars, cur, la, slt, line, w⟩
  simp only at h
  subst h
  by_cases hc : c = 10 <;> simp [nextChar, hc]

/-- consume_line_comment starting right after a successful peek strictly
shrinks the measure. -/
def clc_after_peek : ∀ (s : LexState) (c0 : Nat),
    (peek s).1 = some c0 →
      lexMeasure (consumeLineComment (peek s).2) < lexMeasure s := by
  intro s c0 hp
  have hcur := peekSome_current s c0 (peek s).2 (by rw [← hp])
  have hnc := nextChar_of_current (peek s).2 c0 hcur
  have hm : lexMeasure (nextChar (peek s).2).2 < lexMeasure s :=
    peekThenNext_measure s c0 (peek s).2 (by rw [← hp])
  rw [consumeLineComment]
  split
  · rename_i hn
    rw [hnc] at hn
    cases hn
  · rename_i c hn
    split
    · omega
    · have := clc_le (nextChar (peek s).2).2
      omega

def cmcW_le : ∀ s : LexState,
    lexMeasure (consumeMultiComment s).2 ≤ lexMeasure s := by
  intro s
  exact cmc_measure (s.location.offset - 2) s

/-- The backslash-newline loop at the top of the lexer iterator
(src/lex/mod.rs lines 551-555): while the pending character is a
backslash followed by a newline, discard both and fetch the next
character after any whitespace. -/
def lexSkipBsNl (c : Option Nat) (s : LexState) : Option Nat × LexState :=
  if c = some 92 then
    match hm : matchNext 10 s with
    | (true, s1) =>
      lexSkipBsNl (nextChar (consumeWhitespace s1)).1
        (nextChar (consumeWhitespace s1)).2
    | (false, s1) => (c, s1)
  else (c, s)
termination_by 2 * lexMeasure s + (if c = some 92 then 1 else 0)
decreasing_by
  have h1 : lexMeasure s1 < lexMeasure s := matchNextTrue_measure 10 s s1 hm
  have h2 := cw_measure s1
  have hb : (if c = some 92 then (1:Nat) else 0) = 1 := if_pos ‹c = some 92›
  cases hn : (nextChar (consumeWhitespace s1)).1 with
  | none =>
    obtain ⟨heq, -, -⟩ := nextCharNone_state (consumeWhitespace s1)
      (nextChar (consumeWhitespace s1)).2 (by rw [← hn])
    have hb0 : (if (none : Option Nat) = some 92 then (1:Nat) else 0) = 0 := rfl
    rw [heq]
    omega
  | some c2 =>
    have h3 := nextCharSome_measure (consumeWhitespace s1) c2
      (nextChar (consumeWhitespace s1)).2 (by rw [← hn])
    have hb2 : (if some c2 = some 92 then (1:Nat) else 0) ≤ 1 := by
      split <;> omega
    omega

/-- The comment loop of the lexer iterator (src/lex/mod.rs lines 556-575):
while the pending character is a slash, a second slash discards the line,
a star discards the block comment (an unterminated one is the early error
return), anything else leaves the slash pending. -/
def lexSkipComments (c : Option Nat) (s : LexState) :
    Except LexCompileError (Option Nat) × LexState :=
  if c = some 47 then
    match hp : (peek s).1 with
    | some 47 =>
      lexSkipComments
        (nextChar (consumeWhitespace (consumeLineComment (peek s).2))).1
        (nextChar (consumeWhitespace (consumeLineComment (peek s).2))).2
    | some 42 =>
      match hmc : consumeMultiComment (nextChar (peek s).2).2 with
      | (.error err, s3) => (.error err, s3)
      | (.ok _, s3) =>
        lexSkipComments (nextChar (consumeWhitespace s3)).1
          (nextChar (consumeWhitespace s3)).2
    | _ => (.ok c, (peek s).2)
  else (.ok c, s)
termination_by 2 * lexMeasure s + (if c = some 47 then 1 else 0)
decreasing_by
  · -- line comment
    have h1 : lexMeasure (consumeLineComment (peek s).2) < lexMeasure s :=
      clc_after_peek s 47 hp
    have h2 := cw_measure (consumeLineComment (peek s).2)
    have hb : (if c = some 47 then (1:Nat) else 0) = 1 := if_pos ‹c = some 47›
    cases hn : (nextChar (consumeWhitespace (consumeLineComment (peek s).2))).1 with
    | none =>
      obtain ⟨heq, -, -⟩ := nextCharNone_state
        (consumeWhitespace (consumeLineComment (peek s).2))
        (nextChar (consumeWhitespace (consumeLineComment (peek s).2))).2
        (by rw [← hn])
      have hb0 : (if (none : Option Nat) = some 47 then (1:Nat) else 0) = 0 := rfl
      rw [heq]
      omega
    | some c2 =>
      have h3 := nextCharSome_measure
        (consumeWhitespace (consumeLineComment (peek s).2)) c2
        (nextChar (consumeWhitespace (consumeLineComment (peek s).2))).2
        (by rw [← hn])
      have hb2 : (if some c2 = some 47 then (1:Nat) else 0) ≤ 1 := by
        split <;> omega
      omega
  · -- block comment
    have h0 : lexMeasure (nextChar (peek s).2).2 < lexMeasure s :=
      peekThenNext_measure s 42 (peek s).2 (by rw [← hp])
    have h1 : lexMeasure s3 ≤ lexMeasure (nextChar (peek s).2).2 := by
      have := cmcW_le (nextChar (peek s).2).2
      rw [hmc] at this
      exact this
    have h2 := cw_measure s3
    have hb : (if c = some 47 then (1:Nat) else 0) = 1 := if_pos ‹c = some 47›
    cases hn : (nextChar (consumeWhitespace s3)).1 with
    | none =>
      obtain ⟨heq, -, -⟩ := nextCharNone_state (consumeWhitespace s3)
        (nextChar (consumeWhitespace s3)).2 (by rw [← hn])
      have hb0 : (if (none : Option Nat) = some 47 then (1:Nat) else 0) = 0 := rfl
      rw [heq]
      omega
    | some c2 =>
      have h3 := nextCharSome_measure (consumeWhitespace s3) c2
        (nextChar (consumeWhitespace s3)).2 (by rw [← hn])
      have hb2 : (if some c2 = some 47 then (1:Nat) else 0) ≤ 1 := by
        split <;> omega
      omega

/-- The giant token switch of Iterator::next (src/lex/mod.rs lines
576-777), for an already fetched byte c: pick the token (consulting
peek/match_next for multi-byte punctuation, or the parse_* helpers),
wrap parse errors as generic lex errors at the span from span_start,
and on success record seen_line_token |= data != Hash and attach the
span.  The unknown-byte message keeps the byte as a number. -/
def lexDispatch (c : Nat) (s : LexState) :
    Except LexCompileError LocTok × LexState :=
  let spanStart := s.location.offset - 1
  let (res, s1) : Except String LexToken × LexState :=
    if c = 35 then (.ok .hash, s)
    else if c = 43 then
      match peek s with
      | (some 61, sp) => (.ok (.assignment .plusEqual), (nextChar sp).2)
      | (some 43, sp) => (.ok .plusPlus, (nextChar sp).2)
      | (_, sp) => (.ok .plus, sp)
    else if c = 45 then
      match peek s with
      | (some 61, sp) => (.ok (.assignment .minusEqual), (nextChar sp).2)
      | (some 45, sp) => (.ok .minusMinus, (nextChar sp).2)
      | (some 62, sp) => (.ok .structDeref, (nextChar sp).2)
      | (_, sp) => (.ok .minus, sp)
    else if c = 42 then
      match peek s with
      | (some 61, sp) => (.ok (.assignment .starEqual), (nextChar sp).2)
      | (_, sp) => (.ok .star, sp)
    else if c = 47 then
      match matchNext 61 s with
      | (true, sp) => (.ok (.assignment .divideEqual), sp)
      | (false, sp) => (.ok .divide, sp)
    else if c = 37 then
      match peek s with
      | (some 61, sp) => (.ok (.assignment .modEqual), (nextChar sp).2)
      | (_, sp) => (.ok .mod, sp)
    else if c = 94 then
      match matchNext 61 s with
      | (true, sp) => (.ok (.assignment .xorEqual), sp)
      | (false, sp) => (.ok .xor, sp)
    else if c = 61 then
      match peek s with
      | (some 61, sp) => (.ok (.comparison .equalEqual), (nextChar sp).2)
      | (_, sp) => (.ok (.assignment .equal), sp)
    else if c = 33 then
      match peek s with
      | (some 61, sp) => (.ok (.comparison .notEqual), (nextChar sp).2)
      | (_, sp) => (.ok .logicalNot, sp)
    else if c = 62 then
      match peek s with
      | (some 61, sp) => (.ok (.comparison .greaterEqual), (nextChar sp).2)
      | (some 62, sp) =>
        match matchNext 61 (nextChar sp).2 with
        | (true, sq) => (.ok (.assignment .rightEqual), sq)
        | (false, sq) => (.ok .shiftRight, sq)
      | (_, sp) => (.ok (.comparison .greater), sp)
    else if c = 60 then
      match peek s with
      | (some 61, sp) => (.ok (.comparison .lessEqual), (nextChar sp).2)
      | (some 60, sp) =>
        match matchNext 61 (nextChar sp).2 with
        | (true, sq) => (.ok (.assignment .leftEqual), sq)
        | (false, sq) => (.ok .shiftLeft, sq)
      | (_, sp) => (.ok (.comparison .less), sp)
    else if c = 38 then
      match peek s with
      | (some 38, sp) => (.ok .logicalAnd, (nextChar sp).2)
      | (some 61, sp) => (.ok (.assignment .andEqual), (nextChar sp).2)
      | (_, sp) => (.ok .ampersand, sp)
    else if c = 124 then
      match peek s with
      | (some 124, sp) => (.ok .logicalOr, (nextChar sp).2)
      | (some 61, sp) => (.ok (.assignment .orEqual), (nextChar sp).2)
      | (_, sp) => (.ok .bitwiseOr, sp)
    else if c = 123 then (.ok .leftBrace, s)
    else if c = 125 then (.ok .rightBrace, s)
    else if c = 40 then (.ok .leftParen, s)
    else if c = 41 then (.ok .rightParen, s)
    else if c = 91 then (.ok .leftBracket, s)
    else if c = 93 then (.ok .rightBracket, s)
    else if c = 126 then (.ok .binaryNot, s)
    else if c = 58 then (.ok .colon, s)
    else if c = 59 then (.ok .semicolon, s)
    else if c = 44 then (.ok .comma, s)
    else if c = 46 then
      match peek s with
      | (some d, sp) =>
        if 48 ≤ d ∧ d ≤ 57 then
          match parseFloat 10 "" sp with
          | (.ok f, sq) => (.ok (.literal (.float f)), sq)
          | (.error err, sq) => (.error err, sq)
        else if d = 46 then
          match peekNext sp with
          | (some 46, sq) => (.ok .ellipsis, (nextChar (nextChar sq).2).2)
          | (_, sq) => (.ok .dot, sq)
        else (.ok .dot, sp)
      | (none, sp) => (.ok .dot, sp)
    else if c = 63 then (.ok .question, s)
    else if 48 ≤ c ∧ c ≤ 57 then parseNum c s
    else if (97 ≤ c ∧ c ≤ 122) ∨ (65 ≤ c ∧ c ≤ 90) ∨ c = 95 then parseId c s
    else if c = 39 then parseChar s
    else if c = 34 then
      let s' := { s with current := some 34,
                         location := { s.location with offset := s.location.offset - 1 } }
      parseString s'
    else (.error ("unknown token " ++ toString c), s)
  match res with
  | .error msg => (.error ⟨.generic msg, lexSpan s1 spanStart⟩, s1)
  | .ok data =>
    let s2 := { s1 with seenLineToken := s1.seenLineToken || !(LexToken.isHash data) }
    (.ok ⟨data, lexSpan s2 spanStart⟩, s2)

/-- Iterator::next for Lexer (src/lex/mod.rs lines 548-780): skip
whitespace, fetch a byte, splice backslash-newlines, skip comments, then
dispatch on the byte; a drained stream yields None. -/
def lexNext (s : LexState) : Option (Except LexCompileError LocTok) × LexState :=
  let p1 := nextChar (consumeWhitespace s)
  let p2 := lexSkipBsNl p1.1 p1.2
  match lexSkipComments p2.1 p2.2 with
  | (.error err, s3) => (some (.error err), s3)
  | (.ok none, s3) => (none, s3)
  | (.ok (some c), s3) => (some (lexDispatch c s3).1, (lexDispatch c s3).2)

/-- A None out of the backslash-newline loop either passed straight
through or was produced by next_char after consume_whitespace. -/
def bsnl_none : ∀ (c : Option Nat) (s s3 : LexState),
    lexSkipBsNl c s = (none, s3) →
      (c = none ∧ s3 = s) ∨
        ∃ t, nextChar (consumeWhitespace t) = (none, s3) := by
  intro c s
  induction c, s using lexSkipBsNl.induct with
  | case1 s s1 hm ih =>
    intro s3 h
    rw [lexSkipBsNl, if_pos rfl] at h
    split at h
    · rename_i s1h heq
      rw [hm] at heq
      injection heq with h1 h2
      subst h2
      rcases ih s3 h with ⟨hc, hs⟩ | hex
      · exact .inr ⟨s1, by rw [← hc, hs]⟩
      · exact .inr hex
    · exact Option.noConfusion (congrArg Prod.fst h)
  | case2 s s1 hm =>
    intro s3 h
    rw [lexSkipBsNl, if_pos rfl] at h
    split at h
    · rename_i s1h heq
      rw [hm] at heq
      injection heq with h1 h2
      exact Bool.noConfusion h1
    · exact Option.noConfusion (congrArg Prod.fst h)
  | case3 c s hne =>
    intro s3 h
    rw [lexSkipBsNl, if_neg hne] at h
    exact .inl ⟨congrArg Prod.fst h, (congrArg Prod.snd h).symm⟩

/-- A None out of the comment loop either passed straight through or was
produced by next_char after consume_whitespace. -/
def cmts_none : ∀ (c : Option Nat) (s s3 : LexState),
    lexSkipComments c s = (.ok none, s3) →
      (c = none ∧ s3 = s) ∨
        ∃ t, nextChar (consumeWhitespace t) = (none, s3) := by
  intro c s
  induction c, s using lexSkipComments.induct with
  | case1 s hp ih =>
    intro s3 h
    rw [lexSkipComments, if_pos rfl] at h
    split at h
    · rcases ih s3 h with ⟨hc, hs⟩ | hex
      · exact .inr ⟨consumeLineComment (peek s).2, by rw [← hc, hs]⟩
      · exact .inr hex
    · rename_i heq
      rw [hp] at heq
      simp at heq
    · have h1 := congrArg Prod.fst h
      injection h1 with h2
      exact Option.noConfusion h2
  | case2 s hp err s3e hmc =>
    intro s3 h
    rw [lexSkipComments, if_pos rfl] at h
    split at h
    · rename_i heq
      rw [hp] at heq
      simp at heq
    · split at h
      · exact Except.noConfusion (congrArg Prod.fst h)
      · rename_i u s3h hmc2
        rw [hmc] at hmc2
        exact Except.noConfusion (congrArg Prod.fst hmc2)
    · have h1 := congrArg Prod.fst h
      injection h1 with h2
      exact Option.noConfusion h2
  | case3 s hp u s3e hmc ih =>
    intro s3 h
    rw [lexSkipComments, if_pos rfl] at h
    split at h
    · rename_i heq
      rw [hp] at heq
      simp at heq
    · split at h
      · rename_i errh s3h hmc2
        rw [hmc] at hmc2
        exact Except.noConfusion (congrArg Prod.fst hmc2)
      · rename_i uh s3h hmc2
        rw [hmc] at hmc2
        injection hmc2 with hu hs3
        subst hs3
        rcases ih s3 h with ⟨hc, hs⟩ | hex
        · exact .inr ⟨s3e, by rw [← hc, hs]⟩
        · exact .inr hex
    · have h1 := congrArg Prod.fst h
      injection h1 with h2
      exact Option.noConfusion h2
  | case4 s h47 h42 =>
    intro s3 h
    rw [lexSkipComments, if_pos rfl] at h
    split at h
    · rename_i heq
      exact absurd heq h47
    · rename_i heq
      exact absurd heq h42
    · have h1 := congrArg Prod.fst h
      injection h1 with h2
      exact Option.noConfusion h2
  | case5 c s hne =>
    intro s3 h
    rw [lexSkipComments, if_neg hne] at h
    have h1 := congrArg Prod.fst h
    injection h1 with h2
    exact .inl ⟨h2, (congrArg Prod.snd h).symm⟩

/-- A None from the iterator leaves the lexer fully drained: no pushback
and no unread bytes. -/
def lexNext_none_drained : ∀ (s s3 : LexState),
    lexNext s = (none, s3) → LexDrained s3 := by
  intro s s3 h
  rw [lexNext] at h
  split at h
  · exact Option.noConfusion (congrArg Prod.fst h)
  · rename_i s3h heq
    have hs3 : s3h = s3 := congrArg Prod.snd h
    subst hs3
    rcases cmts_none _ _ _ heq with ⟨hc2, hs2⟩ | ⟨t, ht⟩
    · have hb : lexSkipBsNl (nextChar (consumeWhitespace s)).1
          (nextChar (consumeWhitespace s)).2 = (none, s3h) := by
        rw [← hc2, hs2]
      rcases bsnl_none _ _ _ hb with ⟨hc1, hs1⟩ | ⟨t, ht⟩
      · have hn : nextChar (consumeWhitespace s) = (none, s3h) := by
          rw [← hc1, hs1]
        obtain ⟨hr, hd⟩ := cw_nextChar_none s s3h hn
        rw [hr]
        exact hd
      · obtain ⟨hr, hd⟩ := cw_nextChar_none t s3h ht
        rw [hr]
        exact hd
    · obtain ⟨hr, hd⟩ := cw_nextChar_none t s3h ht
      rw [hr]
      exact hd
  · exact Option.noConfusion (congrArg Prod.fst h)

/-- A drained lexer yields None and does not move. -/
def drained_lexNext : ∀ s : LexState, LexDrained s → lexNext s = (none, s) := by
  intro s hd
  have h0 : consumeWhitespace s = s := drained_cw s hd
  have h1 : nextChar s = (none, s) := drained_nextChar s hd
  have h2 : lexSkipBsNl (none : Option Nat) s = (none, s) := by
    rw [lexSkipBsNl]
    simp
  have h3 : lexSkipComments (none : Option Nat) s = (.ok none, s) := by
    rw [lexSkipComments]
    simp
  rw [lexNext, h0, h1]
  simp only
  rw [h2]
  simp only
  rw [h3]

/-! ## Claim theorems -/

/-- C1: fold_scalar_bin_op evaluates two Int literals with the checked
(overflowing) operation and turns overflow into ConstOverflow whose
is_positive field is the sign bit of the wrapped value, evaluates two
UnsignedInt literals with the wrapping operation and never errors,
evaluates two Float literals with the IEEE operation, and the Add
instantiation overflows exactly when the exact sum leaves the i64 range,
with unsigned addition taken modulo 2^64; folding
0x7fffffffffffffffL + 1 fails with ConstOverflow (is_positive = true). -/
theorem c1_fold_scalar_bin_op :
    (∀ (simple : Float → Float → Float) (ovf : Int → Int → Int × Bool)
        (wrap : Nat → Nat → Nat) (a b : Int) (ct : CType),
        foldScalarBinOp simple ovf wrap (.int a) (.int b) ct =
          (if (ovf a b).2 then
            .error (.constOverflow (decide ((ovf a b).1 < 0)))
          else .ok (some (.int (ovf a b).1)))) ∧
    (∀ (simple : Float → Float → Float) (ovf : Int → Int → Int × Bool)
        (wrap : Nat → Nat → Nat) (a b : Nat) (ct : CType),
        foldScalarBinOp simple ovf wrap (.unsignedInt a) (.unsignedInt b) ct =
          .ok (some (.unsignedInt (wrap a b)))) ∧
    (∀ (simple : Float → Float → Float) (ovf : Int → Int → Int × Bool)
        (wrap : Nat → Nat → Nat) (a b : Float) (ct : CType),
        foldScalarBinOp simple ovf wrap (.float a) (.float b) ct =
          .ok (some (.float (simple a b)))) ∧
    (∀ a b : Int, (i64OverflowingAdd a b).2 = true ↔ ¬ i64InRange (a + b)) ∧
    (∀ a b : Nat, u64WrappingAdd a b = (a + b) % 2^64) ∧
    constFold exprOverflowAdd =
      .error ⟨.semantic (.constOverflow true), locD⟩ := by
  refine ⟨?_, ?_, ?_, ?_, fun a b => rfl, rfl⟩
  · intro simple ovf wrap a b ct
    rfl
  · intro simple ovf wrap a b ct
    rfl
  · intro simple ovf wrap a b ct
    rfl
  · intro a b
    rw [i64OverflowingAdd, i64Overflowing]
    exact decide_eq_true_iff

/-- C2: a division or modulo node whose right operand const-folds to a
literal zero makes const_fold fail with DivideByZero at the node's
location, whatever the left operand is (it is not folded first); in
particular 1 / (2 - 2) and x % (2 - 2) both yield DivideByZero. -/
theorem c2_divide_by_zero :
    (∀ (l r : Expr) (ct : CType) (cx lv : Bool) (loc : Location) (r' : Expr),
        constFold r = .ok r' → r'.isZero = true →
        constFold (.mk (.div l r) ct cx lv loc) =
          .error ⟨.semantic .divideByZero, loc⟩) ∧
    (∀ (l r : Expr) (ct : CType) (cx lv : Bool) (loc : Location) (r' : Expr),
        constFold r = .ok r' → r'.isZero = true →
        constFold (.mk (.mod l r) ct cx lv loc) =
          .error ⟨.semantic .divideByZero, loc⟩) ∧
    constFold exprDivByZero = .error ⟨.semantic .divideByZero, locD⟩ ∧
    constFold exprModByZero = .error ⟨.semantic .divideByZero, locD⟩ := by
  refine ⟨?_, ?_, rfl, rfl⟩ <;>
  · intro l r ct cx lv loc r' h1 h2
    simp only [constFold, foldExprData, h1, h2, bind, Except.bind, if_true]

/-- C2 witness: the hypotheses at the concrete input 1 / (2 - 2). -/
theorem c2_divide_by_zero_witness :
    constFold exprTwoMinusTwo =
      .ok (.mk (.literal (.int 0)) (.int true) true false locD) ∧
    constFold (.mk (.div (litE (.int 1) (.int true)) exprTwoMinusTwo)
        (.int true) false false locD) =
      .error ⟨.semantic .divideByZero, locD⟩ :=
  ⟨rfl, c2_divide_by_zero.1 (litE (.int 1) (.int true)) exprTwoMinusTwo
    (.int true) false false locD
    (.mk (.literal (.int 0)) (.int true) true false locD) rfl rfl⟩

/-- C8: constant folding is not idempotent.  Folding x << 9 (x a
non-constant unsigned long) once rebuilds the node as a RIGHT shift
(shift_left passes false when reconstructing an unfolded shift, fold.rs
lines 523-533), so a second fold saturates it to the literal 0: the two
results differ. -/
theorem c8_fold_not_idempotent :
    constFold exprShlNonConst = .ok exprShlNonConstOnce ∧
    constFold exprShlNonConstOnce = .ok exprShlNonConstTwice ∧
    exprShlNonConstTwice ≠ exprShlNonConstOnce :=
  ⟨rfl, rfl, fun h => ExprType.noConfusion (congrArg Expr.expr h)⟩

/-- C9: every expression returned by const_fold has constexpr = true
exactly when its payload is a literal. -/
theorem c9_constexpr_iff_literal :
    ∀ (e e' : Expr), constFold e = .ok e' →
      (e'.constexpr = true ↔ isLitET e'.expr = true) := by
  intro e e' h
  cases e with
  | mk ex ct cx lv loc =>
    rw [constFold] at h
    cases hf : foldExprData ex ct loc with
    | error err =>
      rw [hf] at h
      exact Except.noConfusion h
    | ok folded =>
      rw [hf] at h
      injection h with h1
      rw [← h1]
      exact Iff.rfl

/-- C9 witness: the invariant at the concrete fold of -(5). -/
theorem c9_constexpr_iff_literal_witness :
    constFold exprNegFive = .ok exprNegFiveResult ∧
    (exprNegFiveResult.constexpr = true ↔
      isLitET exprNegFiveResult.expr = true) :=
  ⟨rfl, c9_constexpr_iff_literal exprNegFive exprNegFiveResult rfl⟩

/-- C3: folding a left shift whose left operand folds to a signed-typed
expression and whose right operand folds to a literal amount at least
CHAR_BIT * sizeof of that type fails with TooManyShiftBits, the maximum
field being CHAR_BIT * sizeof; 1 << 65 at type long gives
TooManyShiftBits (is_left = true, maximum = 64, current = 65). -/
theorem c3_too_many_shift_bits :
    (∀ (l r : Expr) (ct : CType) (cx lv : Bool) (loc : Location)
        (l' r' : Expr) (tok : Literal) (shift size : Nat),
        constFold l = .ok l' → constFold r = .ok r' →
        r'.expr = .literal tok → tok.nonNegativeInt = .ok shift →
        l'.ctype.isSigned = true → l'.ctype.sizeof = .ok size →
        CHAR_BIT * size ≤ shift →
        constFold (.mk (.shift l r true) ct cx lv loc) =
          .error ⟨.semantic (.tooManyShiftBits true (CHAR_BIT * size) ct shift),
            loc⟩) ∧
    constFold exprShl65 =
      .error ⟨.semantic (.tooManyShiftBits true 64 (.long true) 65), locD⟩ := by
  refine ⟨?_, rfl⟩
  intro l r ct cx lv loc l' r' tok shift size h1 h2 h3 h4 h5 h6 h7
  simp only [constFold, foldExprData, h1, h2, bind, Except.bind,
    shiftLeftFolded, h3, h4, h5, h6, if_true]
  rw [if_pos h7]

/-- C3 witness: the hypotheses at the concrete input 1 << 65 (long). -/
theorem c3_too_many_shift_bits_witness :
    constFold (litE (.int 1) (.long true)) = .ok (litE (.int 1) (.long true)) ∧
    Literal.nonNegativeInt (.int 65) = .ok 65 ∧
    CType.isSigned (.long true) = true ∧
    CType.sizeof (.long true) = .ok 8 ∧
    CHAR_BIT * 8 ≤ 65 ∧
    constFold (.mk (.shift (litE (.int 1) (.long true))
        (litE (.int 65) (.long true)) true) (.long true) false false locD) =
      .error ⟨.semantic (.tooManyShiftBits true (CHAR_BIT * 8) (.long true) 65),
        locD⟩ :=
  ⟨rfl, rfl, rfl, rfl, by decide,
    c3_too_many_shift_bits.1 (litE (.int 1) (.long true))
      (litE (.int 65) (.long true)) (.long true) false false locD
      (litE (.int 1) (.long true)) (litE (.int 65) (.long true))
      (.int 65) 65 8 rfl rfl rfl rfl rfl rfl (by decide)⟩

/-- C10: the lexer's iterator is fused: whenever next() returns None with
resulting state s2, calling next() on s2 returns None again and leaves the
state unchanged. -/
theorem c10_lexer_fused :
    ∀ (s s2 : LexState), lexNext s = (none, s2) → lexNext s2 = (none, s2) := by
  intro s s2 h
  exact drained_lexNext s2 (lexNext_none_drained s s2 h)

/-- C10 witness: the fused behavior at the concrete empty input. -/
theorem c10_lexer_fused_witness :
    lexNext (LexState.new 0 []) = (none, LexState.new 0 []) :=
  c10_lexer_fused (LexState.new 0 []) (LexState.new 0 [])
    (drained_lexNext (LexState.new 0 []) (by decide))

/-- C4 counterexample: 65535 >> 10 at type unsigned long folds to
UnsignedInt(0) although the amount 10 is strictly below the 64-bit width
(the saturation test of shift_right compares the amount against sizeof,
the BYTE count 8, not the bit width); the actual shifted value would be
63. -/
theorem c4_counterexample :
    constFold exprShr10 = .ok exprShr10Result ∧
    exprShr10Result.expr = .literal (.unsignedInt 0) ∧
    (10 : Nat) < 64 ∧
    u64WrappingShr 65535 (10 % 2^32) = 63 :=
  ⟨rfl, rfl, by decide, by decide⟩

/-- C4 amended: a right shift saturates to the zero value of the node
type exactly when the literal amount is at least sizeof(type) in BYTES
(not the bit width); below that byte threshold a literal operand folds to
the wrapping-shifted value (UnsignedInt via wrapping_shr, Int via the
arithmetic wrapping_shr, e.g. 256 >> 2 at long folds to Int 64); and an
unsigned LEFT shift never saturates: it folds to the wrapping-shifted
value for every non-negative literal amount. -/
theorem c4_amended :
    (∀ (l r : Expr) (ct : CType) (cx lv : Bool) (loc : Location)
        (l' r' : Expr) (tok : Literal) (shift size : Nat),
        constFold l = .ok l' → constFold r = .ok r' →
        r'.expr = .literal tok → tok.nonNegativeInt = .ok shift →
        ct.sizeof = .ok size → size ≤ shift →
        constFold (.mk (.shift l r false) ct cx lv loc) =
          .ok (.mk (.literal (if ct.isSigned then .int 0 else .unsignedInt 0))
            ct true lv loc)) ∧
    (∀ (l r : Expr) (ct : CType) (cx lv : Bool) (loc : Location)
        (l' r' : Expr) (tok : Literal) (u shift size : Nat),
        constFold l = .ok l' → constFold r = .ok r' →
        r'.expr = .literal tok → tok.nonNegativeInt = .ok shift →
        l'.expr = .literal (.unsignedInt u) →
        ct.sizeof = .ok size → shift < size →
        constFold (.mk (.shift l r false) ct cx lv loc) =
          .ok (.mk (.literal (.unsignedInt (u64WrappingShr u (shift % 2^32))))
            ct true lv loc)) ∧
    (∀ (l r : Expr) (ct : CType) (cx lv : Bool) (loc : Location)
        (l' r' : Expr) (tok : Literal) (shift size : Nat) (i : Int),
        constFold l = .ok l' → constFold r = .ok r' →
        r'.expr = .literal tok → tok.nonNegativeInt = .ok shift →
        l'.expr = .literal (.int i) →
        ct.sizeof = .ok size → shift < size →
        constFold (.mk (.shift l r false) ct cx lv loc) =
          .ok (.mk (.literal (.int (i64WrappingShr i (shift % 2^32))))
            ct true lv loc)) ∧
    (∀ (l r : Expr) (ct : CType) (cx lv : Bool) (loc : Location)
        (l' r' : Expr) (tok : Literal) (u shift : Nat),
        constFold l = .ok l' → constFold r = .ok r' →
        r'.expr = .literal tok → tok.nonNegativeInt = .ok shift →
        l'.expr = .literal (.unsignedInt u) → l'.ctype.isSigned = false →
        constFold (.mk (.shift l r true) ct cx lv loc) =
          .ok (.mk (.literal (.unsignedInt (u64WrappingShl u (shift % 2^32))))
            ct true lv loc)) ∧
    constFold (.mk (.shift (litE (.int 256) (.long true))
        (litE (.int 2) (.long true)) false) (.long true) false false locD) =
      .ok (.mk (.literal (.int 64)) (.long true) true false locD) ∧
    constFold exprShr10 = .ok exprShr10Result := by
  refine ⟨?_, ?_, ?_, ?_, rfl, rfl⟩
  · intro l r ct cx lv loc l' r' tok shift size h1 h2 h3 h4 h5 h6
    simp only [constFold, foldExprData, h1, h2, bind, Except.bind,
      shiftRightFolded, h3, h4, h5]
    rw [if_pos h6]
    rfl
  · intro l r ct cx lv loc l' r' tok u shift size h1 h2 h3 h4 h5 h6 h7
    simp only [constFold, foldExprData, h1, h2, bind, Except.bind,
      shiftRightFolded, h3, h4, h5, h6]
    rw [if_neg (by omega)]
    rfl
  · intro l r ct cx lv loc l' r' tok shift size i h1 h2 h3 h4 h5 h6 h7
    simp only [constFold, foldExprData, h1, h2, bind, Except.bind,
      shiftRightFolded, h3, h4, h5, h6]
    rw [if_neg (by omega)]
    rfl
  · intro l r ct cx lv loc l' r' tok u shift h1 h2 h3 h4 h5 h6
    simp only [constFold, foldExprData, h1, h2, bind, Except.bind,
      shiftLeftFolded, h3, h4, h5, h6]
    rfl

/-- C4 witness: the hypotheses of the byte-threshold saturation at the
concrete input 65535 >> 10 (unsigned long, sizeof 8, 8 <= 10). -/
theorem c4_amended_witness :
    CType.sizeof (.long false) = .ok 8 ∧ (8 : Nat) ≤ 10 ∧
    constFold (.mk (.shift (litE (.unsignedInt 65535) (.long false))
        (litE (.int 10) (.long false)) false) (.long false) false false locD) =
      .ok (.mk (.literal (if CType.isSigned (.long false) then .int 0
          else .unsignedInt 0)) (.long false) true false locD) :=
  ⟨rfl, by decide,
    c4_amended.1 (litE (.unsignedInt 65535) (.long false))
      (litE (.int 10) (.long false)) (.long false) false false locD
      (litE (.unsignedInt 65535) (.long false)) (litE (.int 10) (.long false))
      (.int 10) 10 8 rfl rfl rfl rfl rfl (by decide)⟩

/-- C5 counterexample: 0 && x (x non-constant) does NOT short-circuit:
const_fold returns the logicalAnd node unchanged (its payload is not a
literal), although the left operand is the falsy literal 0. -/
theorem c5_counterexample :
    constFold exprAndZeroX = .ok exprAndZeroXResult ∧
    isLitET exprAndZeroXResult.expr = false ∧
    (litE (.int 0) (.int true)).isZero = true :=
  ⟨rfl, rfl, rfl⟩

/-- C5 amended: the && / || fold acts only when BOTH folded operands are
literals, and only through the exact Int values 0 and 1 (1 && 1 gives 1, a
0 on either side gives 0; 0 || 0 gives 0, a 1 on either side gives 1); any
other pair of literals is left unfolded (even 5 && 1, both truthy), and
whenever EITHER operand does not fold to a literal the node is always
preserved (e.g. 0 && x and x && 0 both stay unfolded). -/
theorem c5_amended :
    (∀ ct, andFoldFn (.int 1) (.int 1) ct = .ok (some (.int 1))) ∧
    (∀ lb ct, andFoldFn (.int 0) lb ct = .ok (some (.int 0))) ∧
    (∀ la ct, andFoldFn la (.int 0) ct = .ok (some (.int 0))) ∧
    (∀ ct, orFoldFn (.int 0) (.int 0) ct = .ok (some (.int 0))) ∧
    (∀ lb ct, orFoldFn (.int 1) lb ct = .ok (some (.int 1))) ∧
    (∀ la ct, orFoldFn la (.int 1) ct = .ok (some (.int 1))) ∧
    (∀ la lb ct, ¬(la = .int 1 ∧ lb = .int 1) → la ≠ .int 0 → lb ≠ .int 0 →
        andFoldFn la lb ct = .ok none) ∧
    (∀ la lb ct, ¬(la = .int 0 ∧ lb = .int 0) → la ≠ .int 1 → lb ≠ .int 1 →
        orFoldFn la lb ct = .ok none) ∧
    (∀ (l r : Expr) (ct : CType) (cx lv : Bool) (loc : Location)
        (l' r' : Expr),
        constFold l = .ok l' → constFold r = .ok r' →
        (isLitET l'.expr = false ∨ isLitET r'.expr = false) →
        constFold (.mk (.logicalAnd l r) ct cx lv loc) =
          .ok (.mk (.logicalAnd l' r') ct false lv loc)) ∧
    (∀ (l r : Expr) (ct : CType) (cx lv : Bool) (loc : Location)
        (l' r' : Expr),
        constFold l = .ok l' → constFold r = .ok r' →
        (isLitET l'.expr = false ∨ isLitET r'.expr = false) →
        constFold (.mk (.logicalOr l r) ct cx lv loc) =
          .ok (.mk (.logicalOr l' r') ct false lv loc)) ∧
    (∀ (l r : Expr) (ct : CType) (cx lv : Bool) (loc : Location)
        (l' r' : Expr) (la lb : Literal),
        constFold l = .ok l' → constFold r = .ok r' →
        l'.expr = .literal la → r'.expr = .literal lb →
        andFoldFn la lb l'.ctype = .ok none →
        constFold (.mk (.logicalAnd l r) ct cx lv loc) =
          .ok (.mk (.logicalAnd l' r') ct false lv loc)) ∧
    (∀ (l r : Expr) (ct : CType) (cx lv : Bool) (loc : Location)
        (l' r' : Expr) (la lb : Literal),
        constFold l = .ok l' → constFold r = .ok r' →
        l'.expr = .literal la → r'.expr = .literal lb →
        orFoldFn la lb l'.ctype = .ok none →
        constFold (.mk (.logicalOr l r) ct cx lv loc) =
          .ok (.mk (.logicalOr l' r') ct false lv loc)) ∧
    constFold (.mk (.logicalAnd (litE (.int 5) (.int true))
        (litE (.int 1) (.int true))) (.int true) false false locD) =
      .ok (.mk (.logicalAnd (litE (.int 5) (.int true))
        (litE (.int 1) (.int true))) (.int true) false false locD) ∧
    constFold (.mk (.logicalAnd (idE (.int true)) (litE (.int 0) (.int true)))
        (.int true) false false locD) =
      .ok (.mk (.logicalAnd (idE (.int true)) (litE (.int 0) (.int true)))
        (.int true) false false locD) ∧
    constFold exprAndZeroX = .ok exprAndZeroXResult := by
  refine ⟨fun ct => rfl, ?_, ?_, fun ct => rfl, ?_, ?_, ?_, ?_, ?_, ?_, ?_,
    ?_, rfl, rfl, rfl⟩
  · intro lb ct
    rw [andFoldFn.eq_def]
    split
    · rename_i heq
      injection heq with h
      exact absurd h (by decide)
    · rfl
    · rfl
    · rename_i hx2 hx1 hx0
      exact (hx1 rfl).elim
  · intro la ct
    rw [andFoldFn.eq_def]
    split
    · rename_i heq
      injection heq with h
      exact absurd h (by decide)
    · rfl
    · rfl
    · rename_i hx2 hx1 hx0
      exact (hx1 rfl).elim
  · intro lb ct
    rw [orFoldFn.eq_def]
    split
    · rename_i heq
      injection heq with h
      exact absurd h (by decide)
    · rfl
    · rfl
    · rename_i hx2 hx1 hx0
      exact (hx1 rfl).elim
  · intro la ct
    rw [orFoldFn.eq_def]
    split
    · rename_i heq
      injection heq with h
      exact absurd h (by decide)
    · rfl
    · rfl
    · rename_i hx2 hx1 hx0
      exact (hx1 rfl).elim
  · intro la lb ct h1 h2 h3
    rw [andFoldFn.eq_def]
    split
    · exact absurd ⟨rfl, rfl⟩ h1
    · exact absurd rfl h2
    · exact absurd rfl h3
    · rfl
  · intro la lb ct h1 h2 h3
    rw [orFoldFn.eq_def]
    split
    · exact absurd ⟨rfl, rfl⟩ h1
    · exact absurd rfl h2
    · exact absurd rfl h3
    · rfl
  · intro l r ct cx lv loc l' r' h1 h2 h3
    have hlb : literalBinOp l' r' loc andFoldFn .logicalAnd =
        .ok (.logicalAnd l' r') := by
      rw [literalBinOp.eq_def]
      split
      · rename_i lt rt heqL heqR
        rcases h3 with h3 | h3
        · rw [heqL] at h3
          exact absurd h3 (by simp [isLitET])
        · rw [heqR] at h3
          exact absurd h3 (by simp [isLitET])
      · rfl
    simp only [constFold, foldExprData, h1, h2, bind, Except.bind, hlb]
    rfl
  · intro l r ct cx lv loc l' r' h1 h2 h3
    have hlb : literalBinOp l' r' loc orFoldFn .logicalOr =
        .ok (.logicalOr l' r') := by
      rw [literalBinOp.eq_def]
      split
      · rename_i lt rt heqL heqR
        rcases h3 with h3 | h3
        · rw [heqL] at h3
          exact absurd h3 (by simp [isLitET])
        · rw [heqR] at h3
          exact absurd h3 (by simp [isLitET])
      · rfl
    simp only [constFold, foldExprData, h1, h2, bind, Except.bind, hlb]
    rfl
  · intro l r ct cx lv loc l' r' la lb h1 h2 h3 h4 h5
    have hlb : literalBinOp l' r' loc andFoldFn .logicalAnd =
        .ok (.logicalAnd l' r') := by
      rw [literalBinOp.eq_def]
      split
      · rename_i lt rt heqL heqR
        rw [h3] at heqL
        rw [h4] at heqR
        injection heqL with hl
        injection heqR with hr2
        subst hl
        subst hr2
        rw [h5]
      · rename_i hno
        exact absurd h3 (by intro hc; exact hno la lb hc h4)
    simp only [constFold, foldExprData, h1, h2, bind, Except.bind, hlb]
    rfl
  · intro l r ct cx lv loc l' r' la lb h1 h2 h3 h4 h5
    have hlb : literalBinOp l' r' loc orFoldFn .logicalOr =
        .ok (.logicalOr l' r') := by
      rw [literalBinOp.eq_def]
      split
      · rename_i lt rt heqL heqR
        rw [h3] at heqL
        rw [h4] at heqR
        injection heqL with hl
        injection heqR with hr2
        subst hl
        subst hr2
        rw [h5]
      · rename_i hno
        exact absurd h3 (by intro hc; exact hno la lb hc h4)
    simp only [constFold, foldExprData, h1, h2, bind, Except.bind, hlb]
    rfl

/-- C5 witness: the preservation hypotheses at the concrete input 0 && x. -/
theorem c5_amended_witness :
    constFold (idE (.int true)) = .ok (idE (.int true)) ∧
    isLitET (Expr.expr (idE (.int true))) = false ∧
    constFold (.mk (.logicalAnd (litE (.int 0) (.int true)) (idE (.int true)))
        (.int true) false false locD) =
      .ok (.mk (.logicalAnd (litE (.int 0) (.int true)) (idE (.int true)))
        (.int true) false false locD) :=
  ⟨rfl, rfl, c5_amended.2.2.2.2.2.2.2.2.1 (litE (.int 0) (.int true))
    (idE (.int true)) (.int true) false false locD
    (litE (.int 0) (.int true)) (idE (.int true)) rfl rfl (Or.inr rfl)⟩

/-- C6: in the modelled escape lexer, a hex escape accepts any number of
digits and a value over one byte is a CharEscapeOutOfRange(Hexadecimal)
diagnostic (every accepted value fits one byte); an octal escape consumes
at most three digits (the first plus at most two more) and an accepted
value fits one byte; concretely the char literal backslash-x-f-f lexes to
the byte 0xff and backslash-x-f-f-f fails with
CharEscapeOutOfRange(Hexadecimal). -/
theorem c6_char_escapes :
    specLexCharLiteral bytesXff = .ok (.char 255) ∧
    specLexCharLiteral bytesXfff = .error (.charEscapeOutOfRange .hexadecimal) ∧
    (∀ (bs : List Nat) (v : Nat) (rest : List Nat),
        specHexEscape bs = .ok (v, rest) → v ≤ 255) ∧
    (∀ (first : Nat) (bs : List Nat) (v : Nat) (rest : List Nat),
        specOctalEscape first bs = .ok (v, rest) → v ≤ 255) ∧
    (∀ (n : Nat) (bs : List Nat) (acc : Nat),
        bs.length ≤ n + (specOctDigits n bs acc).2.length) := by
  refine ⟨rfl, rfl, ?_, ?_, ?_⟩
  · intro bs v rest h
    rw [specHexEscape.eq_def] at h
    split at h
    · exact Except.noConfusion h
    · split at h
      · split at h
        split at h
        · rename_i hle
          injection h with hp
          injection hp with hp1 hp2
          subst hp1
          exact hle
        · exact Except.noConfusion h
      · exact Except.noConfusion h
  · intro first bs v rest h
    rw [specOctalEscape] at h
    split at h
    split at h
    · rename_i hle
      injection h with hp
      injection hp with hp1 hp2
      subst hp1
      exact hle
    · exact Except.noConfusion h
  · intro n
    induction n with
    | zero =>
      intro bs acc
      rw [specOctDigits]
      simp
    | succ m ih =>
      intro bs acc
      cases bs with
      | nil => simp [specOctDigits]
      | cons b rest =>
        rw [specOctDigits]
        split
        · have := ih rest (acc * 8 + (b - 48))
          simp only [List.length_cons]
          omega
        · simp

/-- C6 witness: the hex bound at the concrete escape digits f f. -/
theorem c6_char_escapes_witness :
    specHexEscape [102, 102, 39] = .ok (255, [39]) ∧ (255 : Nat) ≤ 255 :=
  ⟨rfl, c6_char_escapes.2.2.1 [102, 102, 39] 255 [39] rfl⟩

/-- C7 counterexample: in struct { int a; char b; char c; } the code
places c at offset 8, because struct_offset rounds the PREVIOUS member's
size up to the STRUCT's own alignment (4) before advancing; the claimed
rule (round the running offset up to each member's own alignment, here
alignof(char) = 1) would place c at offset 5. -/
theorem c7_counterexample :
    CType.structOffset structABC membersABC "c" = some 8 ∧
    specStructOffset membersABC "c" = some 5 ∧
    CType.alignof (.char true) = .ok 1 ∧
    CType.alignof structABC = .ok 4 :=
  ⟨rfl, rfl, rfl, rfl⟩

/-- C7 amended: struct_offset returns offset 0 for the first member, and
on passing a non-matching member advances the running offset by that
member's size rounded up to the STRUCT's own alignment (self.alignof(),
not the member's); on struct { int a; char b; char c; } this places a, b,
c at 0, 4, 8. -/
theorem c7_amended :
    (∀ (self : CType) (m : CSym) (rest : SymList),
        CType.structOffset self (.cons m rest) m.id = some 0) ∧
    (∀ (self : CType) (member : String) (off : Nat) (m : CSym)
        (rest : SymList) (size align : Nat),
        m.id ≠ member → m.ctype.sizeof = .ok size →
        self.alignof = .ok align →
        (align = 1 ∨ align = 2 ∨ align = 4 ∨ align = 8) →
        size + align < 2^64 →
        structOffsetAux self member off (.cons m rest) =
          structOffsetAux self member
            ((off + roundUpTo size align) % 2^64) rest) ∧
    CType.structOffset structABC membersABC "a" = some 0 ∧
    CType.structOffset structABC membersABC "b" = some 4 ∧
    CType.structOffset structABC membersABC "c" = some 8 := by
  refine ⟨?_, ?_, rfl, rfl, rfl⟩
  · intro self m rest
    cases m with
    | mk mid mct mq msc minit =>
      rw [CType.structOffset, structOffsetAux]
      simp [CSym.id]
  · intro self member off m rest size align h1 h2 h3 h4 h5
    rw [structOffsetAux]
    rw [if_neg h1]
    simp only [h2, h3]
    rw [if_neg (by rcases h4 with h | h | h | h <;> omega)]
    have hpad : (if size % align ≠ 0 then
        (size + u64WrappingSub align size % align) % 2^64 else size) =
        roundUpTo size align := by
      rw [roundUpTo, u64WrappingSub]
      by_cases hr : size % align = 0
      · rw [if_neg (by simp [hr]), if_pos hr]
      · rw [if_pos hr, if_neg hr]
        rcases h4 with h | h | h | h <;> subst h <;> omega
    rw [hpad]

/-- C7 witness: the step equation at the concrete first member int a of
struct { int a; char b; char c; } while looking for c. -/
theorem c7_amended_witness :
    CSym.id memberA ≠ "c" ∧
    CType.sizeof (CSym.ctype memberA) = .ok 4 ∧
    CType.alignof structABC = .ok 4 ∧
    structOffsetAux structABC "c" 0 membersABC =
      structOffsetAux structABC "c" ((0 + roundUpTo 4 4) % 2^64)
        (.cons memberB (.cons memberC .nil)) :=
  ⟨by decide, rfl, rfl,
    c7_amended.2.1 structABC "c" 0 memberA (.cons memberB (.cons memberC .nil))
      4 4 (by decide) rfl rfl (by decide) (by decide)⟩
